import Mathlib

/-!
Verification of the overflow prediction / text-compression subsystem.

A shallow embedding, in Lean 4, of the overflow prediction and text
compression core of the `imdl-ai-translator` repository:

* `src/src/overflow_detector.py`  (frame geometry, risk classification,
  prediction, diagram-frame detection),
* `src/src/overflow_manager.py`   (compression strategies and the
  iterative overflow resolver),
* `src/src/enhanced_post_processor.py` (`_intelligent_truncation`).

Texts are modelled as `List Char` (Python `str` is a sequence of unicode
code points).  Python `float` arithmetic is modelled by exact rational
arithmetic over `ℚ`; Python `int(x)` on a float is truncation toward
zero (`ratTrunc`).  The regular-expression calls of the source use only
a small fragment of Python's `re` syntax (case-insensitive literals,
`\s+`, `\s*`, `(\w+)`, `(\d+)`, alternation of literals, `\b`,
backreferences); that fragment is implemented below by a backtracking
matcher with Python's leftmost / greedy / first-alternative semantics.

Word characters (`\w`) and the lowercase map are interpreted over the
alphabet actually occurring in this code base's data tables and test
texts: ASCII alphanumerics, underscore and the Latin letters listed in
`extraWordChars` (Python's `\w` is unicode-wide; all characters of the
source's tables are classified exactly as Python classifies them).
-/

namespace ImdlOverflow

/-! ## Character classes -/

/-- Non-ASCII characters that Python's `\w` (and `str.isalnum`) accepts and
that occur in the data tables of the source (`ä ö ü Ä Ö Ü ß à è é ì ò ù í ë ² º`). -/
def extraWordChars : List Char :=
  ['ä', 'ö', 'ü', 'Ä', 'Ö', 'Ü', 'ß', 'à', 'è', 'é', 'ì', 'ò', 'ù', 'í', 'ë', '²', 'º']

/-- Python regex `\w` on the alphabet relevant to this code base.
The mojibake characters present in `overflow_detector.py`'s literals
(`√`, `¨`, `†`, `§`, `‚`) are not word characters in Python either. -/
def isWordChar (c : Char) : Bool :=
  c.isAlphanum || c = '_' || extraWordChars.contains c

/-- Python regex `\s` / `str.split()` whitespace. -/
def isSpaceChar (c : Char) : Bool :=
  c = ' ' || c = '\t' || c = '\n' || c = '\r' || c = '\x0b' || c = '\x0c'

/-- Python regex `\d`. -/
def isDigitChar (c : Char) : Bool := c.isDigit

/-- Python `str.lower()` restricted to the alphabet of this code base:
ASCII letters and the German umlauts; every other character occurring in
the source's tables is already caseless. -/
def lowerChar (c : Char) : Char :=
  if c.isUpper then c.toLower
  else if c = 'Ä' then 'ä'
  else if c = 'Ö' then 'ö'
  else if c = 'Ü' then 'ü'
  else c

/-! ## A small pattern engine for the regex fragment used by the source -/

/-- One element of a pattern, covering exactly the constructs appearing in
the `re.sub` / `re.search` patterns of `overflow_manager.py` and
`overflow_detector.py`. -/
inductive RElem where
  /-- a literal run of characters (`re.escape`d text, literal spaces and
  punctuation included) -/
  | lit : List Char → RElem
  /-- `\s+` -/
  | ws1 : RElem
  /-- `\s*` -/
  | ws0 : RElem
  /-- `(\w+)` — capturing -/
  | wordCap : RElem
  /-- `(\d+)` — capturing -/
  | digitCap : RElem
  /-- `(a|b|c)` with literal branches — capturing -/
  | altCap : List (List Char) → RElem
  /-- `\1`, `\2`, … (0-indexed here) -/
  | backref : Nat → RElem
  /-- `\b` -/
  | boundary : RElem
deriving Repr, DecidableEq

/-- One element of a replacement template: literal text or `\g` group. -/
inductive Rep where
  | lit : List Char → Rep
  | group : Nat → Rep
deriving Repr, DecidableEq

/-- Character comparison, case-insensitively when `ci` is set
(`re.IGNORECASE`). -/
def charMatches (ci : Bool) (p c : Char) : Bool :=
  if ci then lowerChar p = lowerChar c else p = c

/-- Is `s` a prefix of `t`, compared by `charMatches ci`? -/
def ciLeadingMatch (ci : Bool) : List Char → List Char → Bool
  | [], _ => true
  | _ :: _, [] => false
  | p :: ps, c :: cs => charMatches ci p c && ciLeadingMatch ci ps cs

/-- The list `[k, k-1, …, 1]`: the candidate lengths of a greedy `+` quantifier,
longest first (Python's backtracking order). -/
def downFrom : Nat → List Nat
  | 0 => []
  | k + 1 => (k + 1) :: downFrom k

/-- The character preceding the position reached after consuming `k`
characters of `t`, given that `prev` preceded `t` (needed for `\b`). -/
def newPrev (k : Nat) (prev : Option Char) (t : List Char) : Option Char :=
  match (t.take k).getLast? with
  | some c => some c
  | none => prev

/-- Backtracking matcher for a pattern against a prefix of `t`.
`prev` is the character just before `t` in the subject (for `\b`),
`caps` the capture groups collected so far.  Returns the final captures,
the new `prev`, and the unconsumed suffix.  Greedy quantifiers try the
longest length first; alternations try branches left to right; this is
Python's `re` backtracking order for this fragment. -/
def matchSeq (ci : Bool) : List RElem → List (List Char) → Option Char → List Char →
    Option (List (List Char) × Option Char × List Char)
  | [], caps, prev, t => some (caps, prev, t)
  | .lit s :: es, caps, prev, t =>
      if ciLeadingMatch ci s t then matchSeq ci es caps (newPrev s.length prev t) (t.drop s.length)
      else none
  | .ws1 :: es, caps, prev, t =>
      (downFrom (t.takeWhile isSpaceChar).length).findSome?
        (fun k => matchSeq ci es caps (newPrev k prev t) (t.drop k))
  | .ws0 :: es, caps, prev, t =>
      (downFrom (t.takeWhile isSpaceChar).length ++ [0]).findSome?
        (fun k => matchSeq ci es caps (newPrev k prev t) (t.drop k))
  | .wordCap :: es, caps, prev, t =>
      (downFrom (t.takeWhile isWordChar).length).findSome?
        (fun k => matchSeq ci es (caps ++ [t.take k]) (newPrev k prev t) (t.drop k))
  | .digitCap :: es, caps, prev, t =>
      (downFrom (t.takeWhile isDigitChar).length).findSome?
        (fun k => matchSeq ci es (caps ++ [t.take k]) (newPrev k prev t) (t.drop k))
  | .altCap ss :: es, caps, prev, t =>
      ss.findSome? (fun s =>
        if ciLeadingMatch ci s t then
          matchSeq ci es (caps ++ [t.take s.length]) (newPrev s.length prev t) (t.drop s.length)
        else none)
  | .backref i :: es, caps, prev, t =>
      let s := caps.getD i []
      if ciLeadingMatch ci s t then matchSeq ci es caps (newPrev s.length prev t) (t.drop s.length)
      else none
  | .boundary :: es, caps, prev, t =>
      let pw := match prev with | some c => isWordChar c | none => false
      let nw := match t with | c :: _ => isWordChar c | [] => false
      if pw ≠ nw then matchSeq ci es caps prev t else none

/-- Instantiate a replacement template with the captures of a match. -/
def buildRep (caps : List (List Char)) (rep : List Rep) : List Char :=
  (rep.map (fun r => match r with | .lit s => s | .group i => caps.getD i [])).flatten

/-- One `re.sub` scan: at each position try the pattern; on a match emit
the instantiated replacement and continue after the match (non-overlapping,
leftmost); otherwise copy one character and move on.  The first component
records whether any match was found.  `fuel` only serves termination;
`t.length + 1` always suffices because every step consumes at least one
character of the subject (none of the source's patterns can match the
empty string, and a hypothetical empty match also advances). -/
def reScanAux (ci : Bool) (pat : List RElem) (rep : List Rep) :
    Nat → Option Char → List Char → Bool × List Char
  | 0, _, t => (false, t)
  | fuel + 1, prev, t =>
      match matchSeq ci pat [] prev t with
      | some (caps, prev', rest) =>
          if rest.length = t.length then
            -- zero-width match: emit replacement, copy one char, continue
            match t with
            | [] => (true, buildRep caps rep)
            | c :: ts =>
                let r := reScanAux ci pat rep fuel (some c) ts
                (true, buildRep caps rep ++ c :: r.2)
          else
            let r := reScanAux ci pat rep fuel prev' rest
            (true, buildRep caps rep ++ r.2)
      | none =>
          match t with
          | [] => (false, [])
          | c :: ts =>
              let r := reScanAux ci pat rep fuel (some c) ts
              (r.1, c :: r.2)

/-- The full scan of a subject, as `re.sub`/`re.search` perform it. -/
def reScan (ci : Bool) (pat : List RElem) (rep : List Rep) (t : List Char) :
    Bool × List Char :=
  reScanAux ci pat rep (t.length + 1) none t

/-- Python `re.sub(pat, rep, t)` (with `re.IGNORECASE` when `ci`). -/
def reSub (ci : Bool) (pat : List RElem) (rep : List Rep) (t : List Char) : List Char :=
  (reScan ci pat rep t).2

/-- Python `re.search(pat, t) is not None` (with `re.IGNORECASE` when `ci`). -/
def reHasMatch (ci : Bool) (pat : List RElem) (rep : List Rep) (t : List Char) : Bool :=
  (reScan ci pat rep t).1

/-- A scan that found no match copied its subject unchanged. -/
theorem reScanAux_no_match (ci : Bool) (pat : List RElem) (rep : List Rep) :
    ∀ (fuel : Nat) (prev : Option Char) (t r : List Char),
      reScanAux ci pat rep fuel prev t = (false, r) → r = t := by
  intro fuel
  induction fuel with
  | zero =>
      intro prev t r h
      exact (by simpa [reScanAux] using congrArg Prod.snd h : t = r).symm
  | succ n ih =>
      intro prev t r h
      simp only [reScanAux] at h
      cases hm : matchSeq ci pat [] prev t with
      | some v =>
          obtain ⟨caps, prev', rest⟩ := v
          rw [hm] at h
          by_cases hz : rest.length = t.length
          · simp only [hz, if_pos rfl] at h
            cases t with
            | nil => exact absurd (congrArg Prod.fst h) (by simp)
            | cons c ts => exact absurd (congrArg Prod.fst h) (by simp)
          · simp only [if_neg hz] at h
            exact absurd (congrArg Prod.fst h) (by simp)
      | none =>
          rw [hm] at h
          cases t with
          | nil => simpa using congrArg Prod.snd h
          | cons c ts =>
              have h1 := congrArg Prod.fst h
              have h2 := congrArg Prod.snd h
              simp only at h1 h2
              have := ih (some c) ts _ (Prod.ext h1 rfl)
              simp [← h2, this]

/-- Substitution is the identity on subjects the pattern does not match. -/
theorem reSub_eq_self_of_no_match (ci : Bool) (pat : List RElem) (rep : List Rep)
    (t : List Char) (h : reHasMatch ci pat rep t = false) :
    reSub ci pat rep t = t := by
  unfold reHasMatch reScan at h
  unfold reSub reScan
  exact reScanAux_no_match ci pat rep _ none t _ (Prod.ext h rfl)

/-- Folding a family of substitutions over a subject that none of them
matches is the identity (each pass leaves the subject unchanged, so the
later passes see the original subject). -/
theorem foldl_reSub_eq_self (ci : Bool) (ps : List (List RElem × List Rep))
    (t : List Char)
    (h : ∀ pr ∈ ps, reHasMatch ci pr.1 pr.2 t = false) :
    ps.foldl (fun acc pr => reSub ci pr.1 pr.2 acc) t = t := by
  induction ps with
  | nil => rfl
  | cons p ps ih =>
      have h1 : reSub ci p.1 p.2 t = t :=
        reSub_eq_self_of_no_match ci p.1 p.2 t (h p (List.mem_cons_self p ps))
      simp only [List.foldl_cons, h1]
      exact ih (fun pr hpr => h pr (List.mem_cons_of_mem p hpr))

/-! ## Python string helpers -/

/-- Python `str.split()` (split on whitespace runs, dropping empty parts):
accumulator-based worker. -/
def splitWSAux : List Char → List Char → List (List Char)
  | [], acc => if acc = [] then [] else [acc.reverse]
  | c :: t, acc =>
      if isSpaceChar c then
        if acc = [] then splitWSAux t [] else acc.reverse :: splitWSAux t []
      else splitWSAux t (c :: acc)

/-- Python `str.split()` with no arguments. -/
def splitWS (t : List Char) : List (List Char) := splitWSAux t []

/-- Python whitespace join: the words joined with single spaces. -/
def joinSpace : List (List Char) → List Char
  | [] => []
  | [w] => w
  | w :: ws => w ++ ' ' :: joinSpace ws

/-- Python `str.strip()` (default whitespace stripping). -/
def stripWS (t : List Char) : List Char :=
  ((t.dropWhile isSpaceChar).reverse.dropWhile isSpaceChar).reverse

/-- Is `p` a (character-exact) prefix of `t`? -/
def leadingExact : List Char → List Char → Bool
  | [], _ => true
  | _ :: _, [] => false
  | p :: ps, c :: cs => p = c && leadingExact ps cs

/-- Python `p in t` substring containment. -/
def containsSub (t p : List Char) : Bool :=
  match t with
  | [] => leadingExact p []
  | _ :: ts => leadingExact p t || containsSub ts p

/-! ## `OverflowManager` data tables (src/src/overflow_manager.py) -/

/-- Pattern-building shorthand: a literal pattern element from a string. -/
def pstr (s : String) : RElem := .lit s.toList

/-- Replacement-building shorthand: a literal replacement from a string. -/
def rstr (s : String) : Rep := .lit s.toList

/-- Pattern-building shorthand: a capturing alternation of literals. -/
def palts (ss : List String) : RElem := .altCap (ss.map String.toList)

/-- The `german_abbreviations` table of `OverflowManager.__init__`
(src/src/overflow_manager.py lines 51-193), in dict insertion order.
The source dict literal repeats the key `installationsakte` with the same
value; a Python dict keeps one entry at the first position. -/
def germanAbbreviations : List (String × String) := [
  ("millimetro", "mm"),
  ("millimetri", "mm"),
  ("centimetro", "cm"),
  ("centimetri", "cm"),
  ("chilogrammo", "kg"),
  ("chilogrammi", "kg"),
  ("kilonewton", "kN"),
  ("metri quadri", "m²"),
  ("metro quadro", "m²"),
  ("installazione", "Install."),
  ("montaggio", "Mont."),
  ("verificare", "verif."),
  ("controllare", "kontroll."),
  ("assicurare", "sicherstell."),
  ("utilizzare", "verwend."),
  ("secondo", "gem."),
  ("conforme", "gem."),
  ("istruzioni", "Anweis."),
  ("manuale", "Handb."),
  ("documento", "Dok."),
  ("pagina", "S."),
  ("figura", "Abb."),
  ("tabella", "Tab."),
  ("capitolo", "Kap."),
  ("sezione", "Abschn."),
  ("paragrafo", "Abs."),
  ("per maggiori informazioni", "für Details"),
  ("come mostrato nella figura", "siehe Abb."),
  ("secondo le istruzioni", "gem. Anweis."),
  ("in base al tipo", "je nach Typ"),
  ("durante il montaggio", "bei Mont."),
  ("dispositivo di protezione individuale", "PSA"),
  ("equipaggiamento di protezione individuale", "PSA"),
  ("dispositivo anticaduta", "Absturzsich."),
  ("sistema di sicurezza", "Sich.syst."),
  ("dokumentenphase", "Dok.phase"),
  ("inspektionsphase", "Inspektion"),
  ("überprüfungsphase", "Prüfphase"),
  ("vorbereitung", "Vorberei."),
  ("durchführung", "Durchf."),
  ("nachbereitung", "Nachberei."),
  ("systemüberprüfung", "Systemprüf."),
  ("funktionalitätsprüfung", "Funkt.prüf."),
  ("qualitätskontrolle", "Qual.kontr."),
  ("wiederbeschaffung", "Wiederbesc."),
  ("beschaffung", "Beschaf."),
  ("bauakte", "Bauakte"),
  ("technisches dachdokument", "Techn.Dachdok."),
  ("installationsakte", "Install.akte"),
  ("bedienungsanleitung", "Bedien.anl."),
  ("wartungsanleitung", "Wart.anl."),
  ("wartungsanleitungen", "Wart.anl."),
  ("verfügbare dokumentation", "Verfügb.Dok."),
  ("dokumentation verfügbar", "Dok.verfügb."),
  ("teilweise verfügbar", "Teilw.verfügb."),
  ("sichtprüfung", "Sichtpr."),
  ("funktionsprüfung", "Funkt.pr."),
  ("instrumentelle prüfung", "Instrum.pr."),
  ("messtechnische prüfung", "Messtech.pr."),
  ("abdeckungsverhältnisse", "Abdeck.verh."),
  ("gehäuse inspizieren", "Gehäuse inspi."),
  ("komponenten prüfen", "Komp.prüf."),
  ("gerätekonfiguration", "Geräte-config"),
  ("systemkonfiguration", "System-config"),
  ("überprüfen sie", "prüfen Sie"),
  ("kontrollieren sie", "kontrolli. Sie"),
  ("inspizieren sie", "inspizi. Sie"),
  ("sicherstellen", "sicherst."),
  ("gewährleisten", "gewährl."),
  ("befolgen sie", "befolg. Sie"),
  ("beachten sie", "beacht. Sie"),
  ("berücksichtigen", "berücks."),
  ("durchführen", "durchf."),
  ("ausführen", "ausf."),
  ("visionieren", "vision."),
  ("komponenten", "Komp."),
  ("bauteile", "Baut."),
  ("einzelteile", "Einzelt."),
  ("ersatzteile", "Ersatzt."),
  ("verschleißteile", "Verschl.t."),
  ("verschleißkittel", "Verschl.kitt."),
  ("befestigungselemente", "Befest.elem."),
  ("verbindungselemente", "Verbind.elem."),
  ("anschlusselemente", "Anschl.elem."),
  ("beschädigte komponenten", "beschäd.Komp."),
  ("verformte komponenten", "verform.Komp."),
  ("korrosion", "Korros."),
  ("verschleiß", "Verschl."),
  ("abnutzung", "Abnut."),
  ("verformung", "Verform."),
  ("integritätsprüfung", "Integr.prüf."),
  ("zustandsprüfung", "Zust.prüf."),
  ("effizienz der beweglichen teile", "Effiz.bewegl.Teile"),
  ("bewegliche teile", "bewegl.Teile"),
  ("korrekte montage", "korr.Montage"),
  ("ordnungsgemäße installation", "ordnungsg.Install."),
  ("fachgerechte montage", "fachger.Mont."),
  ("verfahren zur inspektion", "Inspekt.verfahr."),
  ("inspektionsverfahren", "Inspekt.verfahr."),
  ("prüfverfahren", "Prüfverfahr."),
  ("ablaufverfahren", "Ablaufverfahr."),
  ("arbeitsverfahren", "Arbeitsverfahr."),
  ("grundstrukturen", "Grundstrukt."),
  ("angemessene dokumentation", "angem.Dok."),
  ("ersetzen sie", "ersetz. Sie"),
  ("austauschen", "austausch."),
  ("erneuern", "erneu."),
  ("zertifizierung", "Zertif."),
  ("neue zertifizierung", "neue Zertif."),
  ("freigeben der dokumentation", "Freig.Dok."),
  ("dokumentation freigeben", "Dok.freigeb."),
  ("installation", "Install."),
  ("installationsbereiche", "Install.bereich.") ]

/-- The `optional_words` set of `OverflowManager.__init__`
(src/src/overflow_manager.py lines 219-223); only membership is ever used. -/
def optionalWords : List String := [
  "auch",
  "noch",
  "bereits",
  "schon",
  "dann",
  "danach",
  "dabei",
  "hierzu",
  "dazu",
  "außerdem",
  "zusätzlich",
  "entsprechend",
  "jeweilig",
  "gegebenenfalls",
  "eventuell" ]

/-- The `diagram_keywords` set of `OverflowDetector.__init__`
(src/src/overflow_detector.py lines 57-74), transcribed byte-for-byte:
the source file stores these literals in a double-encoded (mojibake) form,
and the embedding keeps exactly those characters. Only membership/counting
is used, so the set is modelled as a duplicate-free list. -/
def diagramKeywords : List String := [
  "√ºberpr√ºfung",
  "inspektion",
  "pr√ºfung",
  "kontrolle",
  "verfahren",
  "dokumentation",
  "installation",
  "montage",
  "wartung",
  "funktionalit√§t",
  "komponenten",
  "bauteile",
  "system",
  "verformung",
  "besch√§digung",
  "effizienz",
  "qualit√§t",
  "zertifizierung",
  "phase",
  "schritt",
  "prozess",
  "ablauf",
  "arbeitsverfahren",
  "sichtpr√ºfung",
  "funktionspr√ºfung",
  "ispezione",
  "controllo",
  "procedura",
  "documentazione",
  "installazione",
  "montaggio",
  "manutenzione",
  "funzionalit√†",
  "componenti",
  "sistema",
  "deformazione",
  "danneggiamento",
  "efficienza",
  "qualit√†",
  "certificazione",
  "fase",
  "passo",
  "processo",
  "flusso",
  "verifica",
  "controllo visivo",
  "ja",
  "nein",
  "ok",
  "nicht ok",
  "s√¨",
  "no",
  "verificare",
  "sostituire",
  "riparare",
  "mantenere",
  "installare",
  "rimuovere",
  "pulire" ]

/-- The `redundancy_patterns` table of `OverflowManager.__init__`
(src/src/overflow_manager.py lines 196-216); all are applied with
`re.IGNORECASE`. -/
def redundancyPatterns : List (List RElem × List Rep) := [
  ([.boundary, .wordCap, .ws1, .backref 0, .boundary], [.group 0]),
  ([.boundary, palts ["der", "die", "das"], .ws1, palts ["der", "die", "das"], .boundary],
    [.group 0]),
  ([pstr "es ist notwendig zu"], [rstr "zu"]),
  ([pstr "es ist wichtig zu"], [rstr "zu"]),
  ([pstr "stellen Sie sicher, dass"], [rstr "sicherstellen:"]),
  ([pstr "achten Sie darauf, dass"], [rstr "beachten:"]),
  ([pstr "bitte beachten Sie"], [rstr "beachten"]),
  ([pstr "wir empfehlen"], [rstr "empfohlen:"]),
  ([pstr "es wird empfohlen"], [rstr "empfohlen:"]),
  ([pstr "darüber hinaus"], [rstr "außerdem"]),
  ([pstr "zusätzlich dazu"], [rstr "zusätzlich"]),
  ([pstr "abgesehen davon"], [rstr "außerdem"]) ]

/-- The `simplifications` table of `OverflowManager._simplify_language`
(src/src/overflow_manager.py lines 356-374); applied with `re.IGNORECASE`. -/
def simplificationPatterns : List (List RElem × List Rep) := [
  ([pstr "wird", .ws1, .wordCap], [.group 0, rstr "t"]),
  ([pstr ",", .ws0, pstr "der", .ws1, .wordCap, .ws1, pstr "ist"],
    [rstr " (", .group 0, rstr ")"]),
  ([pstr ",", .ws0, pstr "die", .ws1, .wordCap, .ws1, pstr "ist"],
    [rstr " (", .group 0, rstr ")"]),
  ([pstr ",", .ws0, pstr "das", .ws1, .wordCap, .ws1, pstr "ist"],
    [rstr " (", .group 0, rstr ")"]),
  ([pstr "in", .ws1, pstr "der", .ws1, pstr "Regel"], [rstr "normalerweise"]),
  ([pstr "im", .ws1, pstr "Falle", .ws1, pstr "von"], [rstr "bei"]),
  ([pstr "mit", .ws1, pstr "Hilfe", .ws1, pstr "von"], [rstr "mit"]),
  ([pstr "aufgrund", .ws1, pstr "von"], [rstr "wegen"]),
  ([pstr "sowohl", .ws1, .wordCap, .ws1, pstr "als", .ws1, pstr "auch", .ws1, .wordCap],
    [.group 0, rstr " und ", .group 1]),
  ([pstr "nicht", .ws1, pstr "nur", .ws1, .wordCap, .ws1, pstr "sondern", .ws1, pstr "auch",
    .ws1, .wordCap], [.group 0, rstr " und ", .group 1]) ]

/-- The `compactions` table of `OverflowManager._compact_numbers`
(src/src/overflow_manager.py lines 403-418); applied case-sensitively
(no flags). -/
def compactionPatterns : List (List RElem × List Rep) := [
  ([.digitCap, pstr ",", .digitCap], [.group 0, rstr ".", .group 1]),
  ([pstr "von", .ws1, .digitCap, .ws1, pstr "bis", .ws1, .digitCap],
    [.group 0, rstr "-", .group 1]),
  ([pstr "zwischen", .ws1, .digitCap, .ws1, pstr "und", .ws1, .digitCap],
    [.group 0, rstr "-", .group 1]),
  ([.digitCap, .ws1, pstr "x", .ws1, .digitCap], [.group 0, rstr "x", .group 1]),
  ([.digitCap, .ws1, pstr "/", .ws1, .digitCap], [.group 0, rstr "/", .group 1]),
  ([.digitCap, .ws1, pstr "Prozent"], [.group 0, rstr "%"]),
  ([.digitCap, .ws1, pstr "prozent"], [.group 0, rstr "%"]) ]

/-! ## The five compression strategies (src/src/overflow_manager.py) -/

/-- Embeds `OverflowManager._remove_redundancy` (lines 327-337): apply every
redundancy pattern, then collapse whitespace runs (`re.sub(r"\s+", " ")`)
and `strip()`. -/
def removeRedundancy (t : List Char) : List Char :=
  stripWS (reSub false [.ws1] [rstr " "]
    (redundancyPatterns.foldl (fun acc pr => reSub true pr.1 pr.2 acc) t))

/-- The pattern `r"\b" + re.escape(term) + r"\b"` built by
`OverflowManager._apply_abbreviations` for one dictionary term. -/
def abbrevPattern (term : String) : List RElem := [.boundary, .lit term.toList, .boundary]

/-- The abbreviation dictionary as pattern/replacement pairs, one per
dictionary entry, in insertion order. -/
def abbrevRules : List (List RElem × List Rep) :=
  germanAbbreviations.map (fun pr => (abbrevPattern pr.1, [.lit pr.2.toList]))

/-- Embeds `OverflowManager._apply_abbreviations` (lines 339-349): substitute every
dictionary term, whole-word and case-insensitively, in insertion order. -/
def applyAbbreviations (t : List Char) : List Char :=
  abbrevRules.foldl (fun acc pr => reSub true pr.1 pr.2 acc) t

/-- Embeds `OverflowManager._simplify_language` (lines 351-379). -/
def simplifyLanguage (t : List Char) : List Char :=
  simplificationPatterns.foldl (fun acc pr => reSub true pr.1 pr.2 acc) t

/-- The per-word cleanup `re.sub(r"[^\w]", "", word.lower())` of
`OverflowManager._remove_optional_words`. -/
def cleanWordForCheck (w : List Char) : List Char :=
  (w.map lowerChar).filter isWordChar

/-- Embeds `OverflowManager._remove_optional_words` (lines 381-396): keep the words
whose cleaned form is not in the optional-word set, re-joined with single
spaces. -/
def removeOptionalWords (t : List Char) : List Char :=
  joinSpace ((splitWS t).filter
    (fun w => !(optionalWords.map String.toList).contains (cleanWordForCheck w)))

/-- Embeds `OverflowManager._compact_numbers` (lines 398-423). -/
def compactNumbers (t : List Char) : List Char :=
  compactionPatterns.foldl (fun acc pr => reSub false pr.1 pr.2 acc) t

/-- Does some redundancy pattern match `t`?  (The trigger condition of
`_remove_redundancy`, not counting its unconditional whitespace cleanup.) -/
def matchesAnyRedundancy (t : List Char) : Bool :=
  redundancyPatterns.any (fun pr => reHasMatch true pr.1 pr.2 t)

/-- Does some abbreviation-dictionary term occur in `t` as a whole word
(case-insensitively)?  (The trigger condition of `_apply_abbreviations`.) -/
def matchesAnyAbbreviation (t : List Char) : Bool :=
  abbrevRules.any (fun pr => reHasMatch true pr.1 pr.2 t)

/-- Does `t` contain a word from the optional-word stoplist?  (The trigger
condition of `_remove_optional_words`.) -/
def hasOptionalWord (t : List Char) : Bool :=
  (splitWS t).any
    (fun w => (optionalWords.map String.toList).contains (cleanWordForCheck w))

/-! ## `OverflowDetector` data model and geometry
(src/src/overflow_detector.py) -/

/-- Python `int(x)` applied to a float: truncation toward zero. -/
def ratTrunc (q : ℚ) : Int := if 0 ≤ q then ⌊q⌋ else ⌈q⌉

/-- The `inset_spacing` 4-tuple `(top, right, bottom, left)`. -/
structure InsetSpacing where
  top : ℚ
  right : ℚ
  bottom : ℚ
  left : ℚ
deriving Repr, DecidableEq

/-- The `TextFrameMetrics` dataclass (src/src/overflow_detector.py
lines 14-28).  Floats are modelled as exact rationals. -/
structure TextFrameMetrics where
  frame_id : String
  width : ℚ
  height : ℚ
  x : ℚ
  y : ℚ
  column_count : Int
  column_gutter : ℚ
  inset_spacing : InsetSpacing
  font_size : ℚ
  leading : ℚ
  char_count : Int
  estimated_overflow_risk : ℚ
deriving Repr, DecidableEq

/-- The `expansion_factors` table of `OverflowDetector.__init__`
(lines 48-54); an unknown language code falls back to `1.20` at the
lookup sites. -/
def expansionFactors : List (String × ℚ) :=
  [("de", 1.30), ("en", 1.10), ("fr", 1.15), ("es", 1.05), ("pt", 1.10)]

/-- The `risk_thresholds` table of `OverflowDetector.__init__`
(lines 87-92). -/
structure RiskThresholds where
  low : ℚ
  medium : ℚ
  high : ℚ
  critical : ℚ
deriving Repr, DecidableEq

def riskThresholds : RiskThresholds :=
  { low := 0.75, medium := 0.90, high := 1.0, critical := 1.0 }

/-- The effective text width computed by
`_calculate_available_character_space` (lines 366-372): width minus the
side insets, divided over the columns (gutter deducted) when
`column_count > 1`. -/
def effectiveTextWidth (m : TextFrameMetrics) : ℚ :=
  let ew := m.width - m.inset_spacing.left - m.inset_spacing.right
  if 1 < m.column_count then
    (ew - ((m.column_count : ℚ) - 1) * m.column_gutter) / (m.column_count : ℚ)
  else ew

/-- The effective text height of the same function: height minus the
top/bottom insets. -/
def effectiveTextHeight (m : TextFrameMetrics) : ℚ :=
  m.height - m.inset_spacing.top - m.inset_spacing.bottom

/-- Embeds `OverflowDetector._calculate_available_character_space` (lines 362-381):
characters per line from the `0.6 × font_size` glyph-width heuristic, lines
from the leading, times the column count, floored at 50 characters. -/
def calculateAvailableCharacterSpace (m : TextFrameMetrics) : Int :=
  let font_char_width := m.font_size * 0.6
  let chars_per_line := max 1 (ratTrunc (effectiveTextWidth m / font_char_width))
  let lines_available := max 1 (ratTrunc (effectiveTextHeight m / m.leading))
  let total_chars := chars_per_line * lines_available * m.column_count
  max total_chars 50

/-! ## Overflow predictions (src/src/overflow_detector.py lines 300-415) -/

/-- The suggestion strings produced by `_generate_overflow_suggestions`
(lines 383-415), represented structurally: one constructor per distinct
message, with the numeric payload of the length-reduction message kept
exact instead of decimal-formatted. -/
inductive OverflowSuggestion where
  /-- "Nessun rischio overflow - traduzione normale" -/
  | noRisk
  /-- "Rischio basso - monitorare lunghezza traduzione" -/
  | lowMonitor
  /-- "Usa traduzioni concise quando possibile" -/
  | lowConcise
  /-- "Rischio medio - richiedi traduzione compatta" -/
  | mediumCompact
  /-- "Usa abbreviazioni tecniche standard" -/
  | mediumAbbrev
  /-- "Rimuovi parole non essenziali" -/
  | mediumDropWords
  /-- "Rischio alto/critico - azione necessaria" -/
  | highAction
  /-- "Richiedi traduzione ultra-concisa" -/
  | highUltraConcise
  /-- "Usa abbreviazioni e acronimi" -/
  | highAcronyms
  /-- "Considera riduzione font size" -/
  | highReduceFont
  /-- "Dividi testo in segmenti più piccoli" -/
  | highSplit
  /-- "Riduci lunghezza di ~N caratteri (P%)" -/
  | reduceBy (chars : Int) (pct : ℚ)
deriving Repr, DecidableEq

/-- Embeds `OverflowDetector._generate_overflow_suggestions` (lines 383-415). -/
def generateOverflowSuggestions (text : List Char) (estimated_length : Int)
    (available_chars : Int) (overflow_risk : ℚ) : List OverflowSuggestion :=
  let base : List OverflowSuggestion :=
    if overflow_risk < riskThresholds.low then [.noRisk]
    else if overflow_risk < riskThresholds.medium then [.lowMonitor, .lowConcise]
    else if overflow_risk < riskThresholds.high then
      [.mediumCompact, .mediumAbbrev, .mediumDropWords]
    else
      [.highAction, .highUltraConcise, .highAcronyms, .highReduceFont] ++
        (if 100 < text.length then [.highSplit] else [])
  if available_chars < estimated_length then
    let reduction := estimated_length - available_chars
    base ++ [.reduceBy reduction ((reduction : ℚ) / (estimated_length : ℚ) * 100)]
  else base

/-- The `OverflowPrediction` dataclass (lines 30-39). -/
structure OverflowPrediction where
  original_text : List Char
  estimated_translated_length : Int
  available_space_chars : Int
  overflow_risk : ℚ
  recommended_max_length : Int
  frame_id : String
  suggestions : List OverflowSuggestion
deriving Repr, DecidableEq

/-- The virtual "standard" frame synthesized by
`predict_translation_overflow` when no frame metrics are available
(lines 326-335). -/
def standardFrame (i : Nat) (textLen : Nat) : TextFrameMetrics :=
  { frame_id := "frame_" ++ toString i,
    width := 200, height := 100, x := 0, y := 0,
    column_count := 1, column_gutter := 12,
    inset_spacing := { top := 6, right := 6, bottom := 6, left := 6 },
    font_size := 12, leading := 14.4,
    char_count := (textLen : Int),
    estimated_overflow_risk := 0.8 }

/-- The frame-metric choice of `predict_translation_overflow`
(lines 320-335): the first stored frame when any exist, else the
standard virtual frame for text index `i`. -/
def chooseFrame (frame_metrics : List (String × TextFrameMetrics)) (i : Nat)
    (textLen : Nat) : TextFrameMetrics :=
  match frame_metrics with
  | [] => standardFrame i textLen
  | (_, m) :: _ => m

/-- The per-text body of `predict_translation_overflow` (lines 316-358). -/
def predictOne (expansion_factor : ℚ) (frame_metrics : List (String × TextFrameMetrics))
    (i : Nat) (text : List Char) : OverflowPrediction :=
  let estimated_length := ratTrunc ((text.length : ℚ) * expansion_factor)
  let frame_metric := chooseFrame frame_metrics i text.length
  let available_chars := calculateAvailableCharacterSpace frame_metric
  let overflow_risk : ℚ := (estimated_length : ℚ) / ((max available_chars 1 : Int) : ℚ)
  { original_text := text,
    estimated_translated_length := estimated_length,
    available_space_chars := available_chars,
    overflow_risk := overflow_risk,
    recommended_max_length := ratTrunc ((available_chars : ℚ) * 0.9),
    frame_id := frame_metric.frame_id,
    suggestions :=
      generateOverflowSuggestions text estimated_length available_chars overflow_risk }

/-- Embeds `OverflowDetector.predict_translation_overflow` (lines 300-360).
The frame-metrics dict is modelled as an association list in insertion
order; the unknown-language expansion fallback is `1.20`. -/
def predictTranslationOverflow (texts : List (List Char)) (target_language : String)
    (frame_metrics : List (String × TextFrameMetrics)) : List OverflowPrediction :=
  let expansion_factor := ((expansionFactors.lookup target_language).getD 1.20)
  texts.enum.map (fun p => predictOne expansion_factor frame_metrics p.1 p.2)

/-! ## Report risk classification (src/src/overflow_detector.py
lines 417-475) -/

/-- The risk bucketing chain of `generate_overflow_report`
(lines 429-438), as a function of a prediction's `overflow_risk`. -/
def classifyRiskForReport (risk : ℚ) : String :=
  if risk < riskThresholds.low then "low"
  else if risk < riskThresholds.medium then "medium"
  else if risk < riskThresholds.high then "high"
  else "critical"

/-- The `risk_counts` accumulator of `generate_overflow_report`. -/
structure RiskCounts where
  low : Nat
  medium : Nat
  high : Nat
  critical : Nat
deriving Repr, DecidableEq

/-- The classification fold of `generate_overflow_report` (lines 426-438),
exactly as the source's `if`/`elif` chain updates the four counters. -/
def riskCountsOf (predictions : List OverflowPrediction) : RiskCounts :=
  predictions.foldl
    (fun rc pred =>
      if pred.overflow_risk < riskThresholds.low then { rc with low := rc.low + 1 }
      else if pred.overflow_risk < riskThresholds.medium then
        { rc with medium := rc.medium + 1 }
      else if pred.overflow_risk < riskThresholds.high then { rc with high := rc.high + 1 }
      else { rc with critical := rc.critical + 1 })
    { low := 0, medium := 0, high := 0, critical := 0 }

/-! ## Diagram-frame detection (src/src/overflow_detector.py
lines 505-701) -/

/-- The diagram keyword count of `_analyze_diagram_text_content`
(lines 582-585): how many (distinct) keywords occur in the lowercased
frame text as substrings. -/
def countKeywordMatches (textLower : List Char) : Nat :=
  (diagramKeywords.filter (fun kw => containsSub textLower kw.toList)).length

/-- The `flowchart_patterns` list of `_analyze_diagram_text_content`
(lines 596-602), searched with `re.IGNORECASE`.  The arrow entries are
transcribed byte-for-byte from the source file's double-encoded
literals. -/
def flowchartPatterns : List (List RElem) := [
  [.boundary, palts ["ja", "nein"], .boundary],
  [.boundary, palts ["s√¨", "no"], .boundary],
  [.boundary, palts ["step", "schritt", "fase"], .ws0, .digitCap],
  [pstr "->"],
  [pstr "‚Üí"],
  [pstr "‚Üì"],
  [pstr "‚Üë"],
  [pstr "?"] ]

/-- How many flowchart patterns find a match in the lowercased frame
text (each matching pattern contributes a `0.1` bonus). -/
def flowchartPatternCount (textLower : List Char) : Nat :=
  (flowchartPatterns.filter (fun p => reHasMatch true p [] textLower)).length

/-- Embeds `OverflowDetector._analyze_diagram_text_content` (lines 568-608),
parameterized by the frame text that `_extract_frame_text` returns
(the concatenation of all story text). -/
def analyzeDiagramTextContent (frameText : List Char) : ℚ :=
  if frameText = [] then 0
  else
    let textLower := frameText.map lowerChar
    let keyword_matches := countKeywordMatches textLower
    let base : ℚ :=
      if 3 ≤ keyword_matches then 0.8
      else if 2 ≤ keyword_matches then 0.6
      else if 1 ≤ keyword_matches then 0.4
      else 0
    min (base + (flowchartPatternCount textLower : ℚ) * 0.1) 1

/-- Embeds `OverflowDetector._calculate_diagram_score` (lines 537-566). -/
def calculateDiagramScore (m : TextFrameMetrics) (frameText : List Char) : ℚ :=
  let aspect_ratio := m.width / max m.height 1
  let s1 : ℚ :=
    if 0.7 ≤ aspect_ratio ∧ aspect_ratio ≤ 1.4 then 0.2
    else if 0.5 ≤ aspect_ratio ∧ aspect_ratio ≤ 2.0 then 0.1
    else 0
  let area := m.width * m.height
  let char_density := (m.char_count : ℚ) / max area 1
  let s2 : ℚ := if char_density < 0.5 then 0.3 else if char_density < 1.0 then 0.2 else 0
  let text_score := analyzeDiagramTextContent frameText
  let s4 : ℚ := if m.font_size ≤ 10.0 then 0.1 else 0
  min (s1 + s2 + text_score * 0.4 + s4) 1

/-- Embeds `OverflowDetector._identify_diagram_risk_factors` (lines 629-660);
the diagnostic strings are transcribed byte-for-byte (the second one
carries the source file's double-encoded `à`). -/
def identifyDiagramRiskFactors (m : TextFrameMetrics) (frameText : List Char) :
    List String :=
  let area := m.width * m.height
  let f1 : List String :=
    if area < 10000 ∧ 100 < m.char_count then ["Frame piccolo con testo denso"] else []
  let f2 : List String := if m.font_size ≤ 9.0 then ["Font gi√† molto piccolo"] else []
  let f3 : List String :=
    if max (max m.inset_spacing.top m.inset_spacing.right)
        (max m.inset_spacing.bottom m.inset_spacing.left) < 3.0 then
      ["Margini interni molto stretti"]
    else []
  let words := splitWS frameText
  let avg_word_length : ℚ :=
    ((words.map List.length).sum : ℚ) / ((max words.length 1 : Nat) : ℚ)
  let f4 : List String :=
    if frameText ≠ [] ∧ 8 < avg_word_length then ["Terminologia tecnica complessa"] else []
  let f5 : List String :=
    if 1.2 < m.estimated_overflow_risk then ["Alto rischio overflow previsto"] else []
  f1 ++ f2 ++ f3 ++ f4 ++ f5

/-- Embeds `OverflowDetector._calculate_compression_priority` (lines 662-673). -/
def calculateCompressionPriority (m : TextFrameMetrics) (diagram_score : ℚ) : String :=
  if 0.8 ≤ diagram_score ∧ 1.3 ≤ m.estimated_overflow_risk then "critical"
  else if 0.7 ≤ diagram_score ∧ 1.1 ≤ m.estimated_overflow_risk then "high"
  else if 0.6 ≤ diagram_score then "medium"
  else "low"

/-- Embeds `OverflowDetector._get_diagram_specific_strategies` (lines 675-701). -/
def getDiagramSpecificStrategies (m : TextFrameMetrics) (diagram_score : ℚ) :
    List String :=
  (if 0.6 ≤ diagram_score then
    ["use_technical_abbreviations", "compress_procedural_language",
     "simplify_decision_points"]
   else []) ++
  (if 0.8 ≤ diagram_score ∨ 1.2 ≤ m.estimated_overflow_risk then
    ["ultra_compact_mode", "remove_redundant_terms", "use_symbols_over_words"]
   else []) ++
  (if m.font_size ≤ 9.0 then ["avoid_font_reduction"] else [])

/-- The per-frame record stored by `detect_diagram_frames` (lines 524-530),
a `DiagramFrameInfo` in the specification's data model. -/
structure DiagramFrameInfo where
  diagram_score : ℚ
  frame_metrics : TextFrameMetrics
  risk_factors : List String
  compression_priority : String
  recommended_strategies : List String
deriving Repr, DecidableEq

/-- The per-frame body of `detect_diagram_frames` (lines 519-531): build
the info record when the score reaches the `0.6` threshold. -/
def detectOne (storiesText : List Char) (fm : String × TextFrameMetrics) :
    Option (String × DiagramFrameInfo) :=
  let diagram_score := calculateDiagramScore fm.2 storiesText
  if 0.6 ≤ diagram_score then
    some (fm.1,
      { diagram_score := diagram_score,
        frame_metrics := fm.2,
        risk_factors := identifyDiagramRiskFactors fm.2 storiesText,
        compression_priority := calculateCompressionPriority fm.2 diagram_score,
        recommended_strategies := getDiagramSpecificStrategies fm.2 diagram_score })
  else none

/-- Embeds `OverflowDetector.detect_diagram_frames` (lines 505-535): keep the
frames scoring at least `0.6`, via `detectOne` per frame.  The stories data
enters only through the concatenated text `_extract_frame_text` produces,
passed here as `storiesText` (the source uses the same text for every
frame). -/
def detectDiagramFrames (frame_metrics : List (String × TextFrameMetrics))
    (storiesText : List Char) : List (String × DiagramFrameInfo) :=
  frame_metrics.filterMap (detectOne storiesText)

/-! ## The overflow resolver (src/src/overflow_manager.py lines 225-325) -/

/-- The `OverflowResolution` dataclass (lines 14-22). -/
structure OverflowResolution where
  original_text : List Char
  resolved_text : List Char
  resolution_method : String
  space_saved : Int
  success : Bool
  notes : String
deriving Repr, DecidableEq

/-- The `compression_strategies` priority list of
`OverflowManager.__init__` (lines 40-46). -/
def compressionStrategies : List String :=
  ["remove_redundancy", "use_abbreviations", "simplify_language",
   "remove_optional_words", "compact_numbers"]

/-- Embeds `OverflowManager._apply_compression_strategy` (lines 307-325). -/
def applyCompressionStrategy (text : List Char) (strategy : String) : List Char :=
  if strategy = "remove_redundancy" then removeRedundancy text
  else if strategy = "use_abbreviations" then applyAbbreviations text
  else if strategy = "simplify_language" then simplifyLanguage text
  else if strategy = "remove_optional_words" then removeOptionalWords text
  else if strategy = "compact_numbers" then compactNumbers text
  else text

/-- The mutable state of `_resolve_single_overflow`'s loop:
`current_text`, `methods_used` and `total_saved`. -/
structure CompressionState where
  text : List Char
  methods : List String
  saved : Int
deriving Repr, DecidableEq

/-- The inner strategy loop of `_resolve_single_overflow` (lines 273-286):
apply the remaining strategies in order; record a strategy in
`methods_used` (and its saving in `total_saved`) only when it shortened
the text; break as soon as the current length is within the target.
The returned trace additionally records, for the specification's benefit,
every strategy application together with the length of the text it was
applied to; it does not influence the computed state. -/
def innerPass (target : Int) :
    List String → CompressionState → List (String × Nat) →
      CompressionState × List (String × Nat)
  | [], st, trace => (st, trace)
  | strategy :: rest, st, trace =>
      let previous_length := st.text.length
      let current_text := applyCompressionStrategy st.text strategy
      let saved : Int := (previous_length : Int) - (current_text.length : Int)
      let st' : CompressionState :=
        { text := current_text,
          methods := if 0 < saved then st.methods ++ [strategy] else st.methods,
          saved := if 0 < saved then st.saved + saved else st.saved }
      let trace' := trace ++ [(strategy, previous_length)]
      if (current_text.length : Int) ≤ target then (st', trace')
      else innerPass target rest st' trace'

/-- The outer iteration loop of `_resolve_single_overflow` (lines 270-286):
up to `max_iterations` passes, stopping at the top of a pass once the
current length is within the target. -/
def compressionLoop (target : Int) :
    Nat → CompressionState → List (String × Nat) →
      CompressionState × List (String × Nat)
  | 0, st, trace => (st, trace)
  | n + 1, st, trace =>
      if (st.text.length : Int) ≤ target then (st, trace)
      else
        let out := innerPass target compressionStrategies st trace
        compressionLoop target n out.1 out.2

/-- Embeds `OverflowManager._resolve_single_overflow` (lines 258-305). -/
def resolveSingleOverflow (prediction : OverflowPrediction) (max_iterations : Nat) :
    OverflowResolution :=
  let target_length := prediction.recommended_max_length
  let out := compressionLoop target_length max_iterations
    { text := prediction.original_text, methods := [], saved := 0 } []
  let st := out.1
  { original_text := prediction.original_text,
    resolved_text := st.text,
    resolution_method :=
      if st.methods = [] then "no_compression" else String.intercalate "+" st.methods,
    space_saved := st.saved,
    success := decide ((st.text.length : Int) ≤ target_length),
    notes := "Lunghezza finale: " ++ toString st.text.length ++ "/" ++
      toString target_length ++ ". " ++
      (if st.methods = [] then "Nessuna compressione applicata"
       else "Strategie: " ++ String.intercalate ", " st.methods) }

/-- The no-overflow resolution built by `resolve_overflow_predictions`
(lines 240-249) for predictions with `overflow_risk <= 1.0`. -/
def noActionResolution (prediction : OverflowPrediction) : OverflowResolution :=
  { original_text := prediction.original_text,
    resolved_text := prediction.original_text,
    resolution_method := "no_action_needed",
    space_saved := 0,
    success := true,
    notes := "Nessun overflow previsto" }

/-- Embeds `OverflowManager.resolve_overflow_predictions` (lines 225-256). -/
def resolveOverflowPredictions (predictions : List OverflowPrediction)
    (max_iterations : Nat) : List OverflowResolution :=
  predictions.map (fun pred =>
    if pred.overflow_risk ≤ 1.0 then noActionResolution pred
    else resolveSingleOverflow pred max_iterations)

/-! ## Intelligent truncation
(src/src/enhanced_post_processor.py lines 702-735) -/

/-- Python `re.split` on the class `[.!?]`: the pieces of `text` between sentence
delimiters (accumulator-based worker; the result is always non-empty). -/
def splitSentencesAux : List Char → List Char → List (List Char)
  | [], acc => [acc.reverse]
  | c :: t, acc =>
      if c = '.' ∨ c = '!' ∨ c = '?' then acc.reverse :: splitSentencesAux t []
      else splitSentencesAux t (c :: acc)

def splitSentences (t : List Char) : List (List Char) := splitSentencesAux t []

/-- The word-accumulation loop of `_intelligent_truncation` (lines 716-725):
keep taking words while the running length (plus a separating space each)
stays within `max_length - 3` (three characters reserved for the
ellipsis). -/
def truncWords (maxLength : Nat) : List (List Char) → Nat → List (List Char)
  | [], _ => []
  | w :: ws, current_length =>
      if current_length + w.length + 1 ≤ maxLength - 3 then
        w :: truncWords maxLength ws (current_length + w.length + 1)
      else []

/-- Embeds `EnhancedPostProcessor._intelligent_truncation`
(src/src/enhanced_post_processor.py lines 702-735).  Subtraction is `Nat`
subtraction; for `max_length ≥ 3` it agrees with Python's `max_length - 3`
(below that, Python's negative slice bound would behave differently, but
every claim about this operation assumes `max_length ≥ 4`). -/
def intelligentTruncation (text : List Char) (maxLength : Nat) : List Char :=
  if text.length ≤ maxLength then text
  else
    let sentences := splitSentences text
    let truncated := sentences.headD [] ++ ['.']
    if 1 < sentences.length ∧ truncated.length ≤ maxLength then truncated
    else
      let truncated_words := truncWords maxLength (splitWS text) 0
      if truncated_words ≠ [] then joinSpace truncated_words ++ ['.', '.', '.']
      else text.take (maxLength - 3) ++ ['.', '.', '.']

/-! ## Concrete records used by the claim theorems and witnesses -/

/-- The length of a word list once joined with single separating spaces,
counted as one unit per word (`length + 1`). -/
def wordsWeight (ws : List (List Char)) : Nat := (ws.map (fun w => w.length + 1)).sum

/-- The degenerate concrete frame used by the C2 witness: zero width and
height, insets larger than the frame, column count `0`. -/
def degenerateFrame : TextFrameMetrics :=
  { frame_id := "degenerate", width := 0, height := 0, x := 0, y := 0,
    column_count := 0, column_gutter := 12,
    inset_spacing := { top := 9, right := 9, bottom := 9, left := 9 },
    font_size := 12, leading := 14.4, char_count := -3,
    estimated_overflow_risk := 0 }

/-- A default prediction record, used only as a `getD` fallback. -/
def defaultPrediction : OverflowPrediction :=
  { original_text := [], estimated_translated_length := 0, available_space_chars := 0,
    overflow_risk := 0, recommended_max_length := 0, frame_id := "", suggestions := [] }

/-- A default resolution record, used only as a `getD` fallback. -/
def defaultResolution : OverflowResolution :=
  { original_text := [], resolved_text := [], resolution_method := "",
    space_saved := 0, success := false, notes := "" }

/-- The C10 witness prediction: risk exactly `1.0`, but the original text
(10 characters) exceeds the recommended max length (5). -/
def c10Prediction : OverflowPrediction :=
  { original_text := "0123456789".toList, estimated_translated_length := 10,
    available_space_chars := 10, overflow_risk := 1.0, recommended_max_length := 5,
    frame_id := "f", suggestions := [] }

/-- The C3 counterexample prediction: `overflow_risk = 0.95 ≤ 1.0`, a
60-character original text, and a recommended max length of 40. -/
def c3Prediction : OverflowPrediction :=
  { original_text := List.replicate 60 'a',
    estimated_translated_length := 57, available_space_chars := 45,
    overflow_risk := 0.95, recommended_max_length := 40, frame_id := "f1",
    suggestions := [] }

/-- Witness for the amended C3 at a concrete compression-path input
(risk above 1.0, text long enough to stay over the target). -/
def c3AmendedPrediction : OverflowPrediction :=
  { original_text := "zu lang und ohne jede Abkuerzung".toList,
    estimated_translated_length := 41, available_space_chars := 20,
    overflow_risk := 2.05, recommended_max_length := 18, frame_id := "f2",
    suggestions := [] }

/-- The concrete frame of the C8 witness: square (aspect ratio 1), low
character density, 10pt font, precomputed overflow risk 1.5. -/
def c8Frame : TextFrameMetrics :=
  { frame_id := "d1", width := 100, height := 100, x := 0, y := 0,
    column_count := 1, column_gutter := 12,
    inset_spacing := { top := 0, right := 0, bottom := 0, left := 0 },
    font_size := 10, leading := 12, char_count := 10,
    estimated_overflow_risk := 1.5 }

/-- The concrete story text of the C8 witness: three diagram keywords. -/
def c8Text : List Char := "ispezione controllo montaggio".toList

/-- The record `detect_diagram_frames` builds for `c8Frame` and `c8Text`. -/
def c8Info : DiagramFrameInfo :=
  { diagram_score := 23/25,
    frame_metrics := c8Frame,
    risk_factors := ["Margini interni molto stretti", "Terminologia tecnica complessa",
      "Alto rischio overflow previsto"],
    compression_priority := "critical",
    recommended_strategies := ["use_technical_abbreviations",
      "compress_procedural_language", "simplify_decision_points",
      "ultra_compact_mode", "remove_redundant_terms", "use_symbols_over_words"] }

/-- The concrete frame of the C9 witness. -/
def c9Frame : TextFrameMetrics :=
  { frame_id := "c9", width := 80, height := 120, x := 0, y := 0,
    column_count := 1, column_gutter := 12,
    inset_spacing := { top := 2, right := 2, bottom := 2, left := 2 },
    font_size := 12, leading := 14.4, char_count := 40,
    estimated_overflow_risk := 1.0 }


/-! # Theorems for the specification claims -/

/-! ## C1 — the intelligent-truncation length guarantee -/

theorem truncWords_weight (maxLength : Nat) :
    ∀ (ws : List (List Char)) (cur : Nat),
      truncWords maxLength ws cur ≠ [] →
      cur + wordsWeight (truncWords maxLength ws cur) ≤ maxLength - 3 := by
  intro ws
  induction ws with
  | nil => intro cur h; simp [truncWords] at h
  | cons w ws ih =>
      intro cur h
      rw [truncWords] at h ⊢
      by_cases hc : cur + w.length + 1 ≤ maxLength - 3
      · simp only [if_pos hc] at h ⊢
        by_cases hrest : truncWords maxLength ws (cur + w.length + 1) = []
        · simp only [hrest, wordsWeight, List.map_cons, List.map_nil, List.sum_cons,
            List.sum_nil]
          omega
        · have := ih (cur + w.length + 1) hrest
          simp only [wordsWeight, List.map_cons, List.sum_cons] at this ⊢
          omega
      · simp [if_neg hc] at h

theorem joinSpace_length :
    ∀ (ws : List (List Char)), ws ≠ [] → (joinSpace ws).length + 1 = wordsWeight ws := by
  intro ws
  induction ws with
  | nil => intro h; exact absurd rfl h
  | cons w ws ih =>
      intro _
      cases ws with
      | nil => simp [joinSpace, wordsWeight]
      | cons x xs =>
          have := ih (by simp)
          simp only [joinSpace, wordsWeight, List.map_cons, List.sum_cons,
            List.length_append, List.length_cons] at this ⊢
          omega

/-- Claim C1:  For every input text and every `target_length ≥ 4`, the
intelligent truncation operation returns a string whose length is at most
`target_length`, whichever internal branch is taken: sentence-boundary
truncation, word-boundary truncation with an appended ellipsis, or hard
truncation at `target_length - 3` plus ellipsis. -/
theorem c1_intelligent_truncation_length_bound (text : List Char) (maxLength : Nat)
    (h : 4 ≤ maxLength) :
    (intelligentTruncation text maxLength).length ≤ maxLength := by
  simp only [intelligentTruncation]
  split_ifs with h1 h2 h3
  · exact h1
  · exact h2.2
  · have hw := truncWords_weight maxLength (splitWS text) 0 h3
    have hj := joinSpace_length _ h3
    simp only [List.length_append, List.length_cons, List.length_nil]
    omega
  · simp only [List.length_append, List.length_take, List.length_cons, List.length_nil]
    omega

/-- Witness for C1: the bound evaluated at a concrete text and target. -/
theorem c1_witness :
    4 ≤ 10 ∧ (intelligentTruncation "abcdefghijklmnop".toList 10).length ≤ 10 :=
  ⟨by norm_num,
   c1_intelligent_truncation_length_bound "abcdefghijklmnop".toList 10 (by norm_num)⟩

/-! ## C2 — the frame-capacity floor and formula -/

/-- Taking `max 1` after Python int() cannot tell truncation toward zero from `floor`:
for non-negative arguments they agree, and both sides collapse to `1`
on negative arguments. -/
theorem max_one_ratTrunc (q : ℚ) : max 1 (ratTrunc q) = max 1 ⌊q⌋ := by
  unfold ratTrunc
  split_ifs with h0
  · rfl
  · push_neg at h0
    have hc : ⌈q⌉ ≤ 0 := Int.ceil_le.mpr (by exact_mod_cast h0.le)
    have hf : ⌊q⌋ ≤ 0 := (Int.floor_le_ceil q).trans hc
    rw [max_eq_left (hc.trans (by norm_num)), max_eq_left (hf.trans (by norm_num))]

/-- The capacity floor, unconditionally. -/
theorem capacity_ge_50 (m : TextFrameMetrics) :
    50 ≤ calculateAvailableCharacterSpace m :=
  le_max_right _ _

/-- Claim C2:  For every `TextFrameMetrics` record (degenerate geometry,
oversized insets and non-positive column counts included, with the data
model's positivity of font size and leading), the frame-capacity
computation returns at least 50, and equals
`max 1 ⌊eff_width / (font_size × 0.6)⌋ × max 1 ⌊eff_height / leading⌋ ×
column_count` above that floor. -/
theorem c2_capacity_floor_and_formula (m : TextFrameMetrics)
    (_hf : 0 < m.font_size) (_hl : 0 < m.leading) :
    50 ≤ calculateAvailableCharacterSpace m ∧
    calculateAvailableCharacterSpace m =
      max (max 1 ⌊effectiveTextWidth m / (m.font_size * 0.6)⌋ *
           max 1 ⌊effectiveTextHeight m / m.leading⌋ * m.column_count) 50 := by
  refine ⟨capacity_ge_50 m, ?_⟩
  simp only [calculateAvailableCharacterSpace]
  rw [max_one_ratTrunc, max_one_ratTrunc]

/-- Witness for C2 at `degenerateFrame`; the capacity collapses to the
floor of 50 there. -/
theorem c2_witness :
    (0 : ℚ) < degenerateFrame.font_size ∧ (0 : ℚ) < degenerateFrame.leading ∧
    (50 ≤ calculateAvailableCharacterSpace degenerateFrame ∧
      calculateAvailableCharacterSpace degenerateFrame =
        max (max 1 ⌊effectiveTextWidth degenerateFrame /
              (degenerateFrame.font_size * 0.6)⌋ *
             max 1 ⌊effectiveTextHeight degenerateFrame / degenerateFrame.leading⌋ *
             degenerateFrame.column_count) 50) :=
  ⟨by norm_num [degenerateFrame], by norm_num [degenerateFrame],
   c2_capacity_floor_and_formula degenerateFrame (by norm_num [degenerateFrame])
     (by norm_num [degenerateFrame])⟩

/-! ## C4 — report risk buckets are a fixed-threshold function of the risk -/

/-- The four counters of `generate_overflow_report`'s classification fold
count exactly the predictions in the four half-open risk bands (the fold
is analysed from an arbitrary starting accumulator). -/
theorem riskCountsOf_spec (predictions : List OverflowPrediction) :
    riskCountsOf predictions =
      { low := predictions.countP (fun p => decide (p.overflow_risk < 0.75)),
        medium := predictions.countP
          (fun p => decide (0.75 ≤ p.overflow_risk) && decide (p.overflow_risk < 0.90)),
        high := predictions.countP
          (fun p => decide (0.90 ≤ p.overflow_risk) && decide (p.overflow_risk < 1.0)),
        critical := predictions.countP (fun p => decide (1.0 ≤ p.overflow_risk)) } := by
  have key : ∀ (l : List OverflowPrediction) (rc : RiskCounts),
      l.foldl
        (fun rc pred =>
          if pred.overflow_risk < riskThresholds.low then { rc with low := rc.low + 1 }
          else if pred.overflow_risk < riskThresholds.medium then
            { rc with medium := rc.medium + 1 }
          else if pred.overflow_risk < riskThresholds.high then
            { rc with high := rc.high + 1 }
          else { rc with critical := rc.critical + 1 }) rc =
      { low := rc.low + l.countP (fun p => decide (p.overflow_risk < 0.75)),
        medium := rc.medium + l.countP
          (fun p => decide (0.75 ≤ p.overflow_risk) && decide (p.overflow_risk < 0.90)),
        high := rc.high + l.countP
          (fun p => decide (0.90 ≤ p.overflow_risk) && decide (p.overflow_risk < 1.0)),
        critical := rc.critical + l.countP (fun p => decide (1.0 ≤ p.overflow_risk)) } := by
    intro l
    induction l with
    | nil => intro rc; simp
    | cons p l ih =>
        intro rc
        simp only [List.foldl_cons, List.countP_cons, ih]
        by_cases h1 : p.overflow_risk < riskThresholds.low
        · have e1 : decide (p.overflow_risk < 0.75) = true := by
            simpa [riskThresholds] using h1
          have e2 : ¬ (0.75 : ℚ) ≤ p.overflow_risk := by
            simpa [riskThresholds, not_le] using h1
          have e3 : ¬ (0.90 : ℚ) ≤ p.overflow_risk := fun hc =>
            e2 (le_trans (by norm_num) hc)
          have e4 : ¬ (1.0 : ℚ) ≤ p.overflow_risk := fun hc =>
            e2 (le_trans (by norm_num) hc)
          simp [h1, e1, e2, e3, e4]; omega
        · by_cases h2 : p.overflow_risk < riskThresholds.medium
          · have e1 : ¬ p.overflow_risk < (0.75 : ℚ) := by
              simpa [riskThresholds] using h1
            have e2 : (0.75 : ℚ) ≤ p.overflow_risk := not_lt.mp e1
            have e3 : p.overflow_risk < (0.90 : ℚ) := by
              simpa [riskThresholds] using h2
            have e4 : ¬ (0.90 : ℚ) ≤ p.overflow_risk := not_le.mpr e3
            have e5 : ¬ (1.0 : ℚ) ≤ p.overflow_risk := fun hc =>
              e4 (le_trans (by norm_num) hc)
            simp [h1, h2, e1, e2, e3, e4, e5]; omega
          · by_cases h3 : p.overflow_risk < riskThresholds.high
            · have e1 : ¬ p.overflow_risk < (0.75 : ℚ) := by
                simpa [riskThresholds] using h1
              have e2 : ¬ p.overflow_risk < (0.90 : ℚ) := by
                simpa [riskThresholds] using h2
              have e3 : (0.90 : ℚ) ≤ p.overflow_risk := not_lt.mp e2
              have e4 : p.overflow_risk < (1.0 : ℚ) := by
                simpa [riskThresholds] using h3
              have e5 : ¬ (1.0 : ℚ) ≤ p.overflow_risk := not_le.mpr e4
              simp [h1, h2, h3, e1, e2, e3, e4, e5]; omega
            · have e1 : ¬ p.overflow_risk < (0.75 : ℚ) := by
                simpa [riskThresholds] using h1
              have e2 : ¬ p.overflow_risk < (0.90 : ℚ) := by
                simpa [riskThresholds] using h2
              have e3 : ¬ p.overflow_risk < (1.0 : ℚ) := by
                simpa [riskThresholds] using h3
              have e4 : (1.0 : ℚ) ≤ p.overflow_risk := not_lt.mp e3
              simp [h1, h2, h3, e1, e2, e3, e4]; omega
  simpa using key predictions { low := 0, medium := 0, high := 0, critical := 0 }

/-- Claim C4:  The report's risk bucket is a function of `overflow_risk`
with fixed thresholds — `risk < 0.75` low, `0.75 ≤ risk < 0.90` medium,
`0.90 ≤ risk < 1.0` high, and `risk ≥ 1.0` always critical (never high);
accordingly, the report's counters count exactly those bands. -/
theorem c4_risk_bucket_thresholds :
    (∀ risk : ℚ,
      (classifyRiskForReport risk = "low" ↔ risk < 0.75) ∧
      (classifyRiskForReport risk = "medium" ↔ 0.75 ≤ risk ∧ risk < 0.90) ∧
      (classifyRiskForReport risk = "high" ↔ 0.90 ≤ risk ∧ risk < 1.0) ∧
      (classifyRiskForReport risk = "critical" ↔ 1.0 ≤ risk)) ∧
    (∀ predictions : List OverflowPrediction,
      (riskCountsOf predictions).critical =
        predictions.countP (fun p => decide (1.0 ≤ p.overflow_risk)) ∧
      (riskCountsOf predictions).high =
        predictions.countP
          (fun p => decide (0.90 ≤ p.overflow_risk) && decide (p.overflow_risk < 1.0))) := by
  constructor
  · intro risk
    unfold classifyRiskForReport
    by_cases h1 : risk < riskThresholds.low
    · rw [if_pos h1]
      replace h1 : risk < (0.75 : ℚ) := by simpa [riskThresholds] using h1
      exact ⟨iff_of_true rfl h1,
        iff_of_false (by decide) (fun h => not_lt.mpr h.1 h1),
        iff_of_false (by decide) (fun h => not_lt.mpr (le_trans (by norm_num) h.1) h1),
        iff_of_false (by decide) (fun h => not_lt.mpr (le_trans (by norm_num) h) h1)⟩
    · rw [if_neg h1]
      have ge1 : (0.75 : ℚ) ≤ risk := not_lt.mp (by simpa [riskThresholds] using h1)
      by_cases h2 : risk < riskThresholds.medium
      · rw [if_pos h2]
        replace h2 : risk < (0.90 : ℚ) := by simpa [riskThresholds] using h2
        exact ⟨iff_of_false (by decide) (fun h => not_lt.mpr ge1 h),
          iff_of_true rfl ⟨ge1, h2⟩,
          iff_of_false (by decide) (fun h => not_lt.mpr h.1 h2),
          iff_of_false (by decide) (fun h => not_lt.mpr (le_trans (by norm_num) h) h2)⟩
      · rw [if_neg h2]
        have ge2 : (0.90 : ℚ) ≤ risk := not_lt.mp (by simpa [riskThresholds] using h2)
        by_cases h3 : risk < riskThresholds.high
        · rw [if_pos h3]
          replace h3 : risk < (1.0 : ℚ) := by simpa [riskThresholds] using h3
          exact ⟨iff_of_false (by decide)
              (fun h => not_lt.mpr (le_trans (by norm_num) ge2) h),
            iff_of_false (by decide) (fun h => not_lt.mpr ge2 h.2),
            iff_of_true rfl ⟨ge2, h3⟩,
            iff_of_false (by decide) (fun h => not_lt.mpr h h3)⟩
        · rw [if_neg h3]
          have ge3 : (1.0 : ℚ) ≤ risk := not_lt.mp (by simpa [riskThresholds] using h3)
          exact ⟨iff_of_false (by decide)
              (fun h => not_lt.mpr (le_trans (by norm_num) ge3) h),
            iff_of_false (by decide)
              (fun h => not_lt.mpr (le_trans (by norm_num) ge3) h.2),
            iff_of_false (by decide) (fun h => not_lt.mpr ge3 h.2),
            iff_of_true rfl ge3⟩
  · intro predictions
    rw [riskCountsOf_spec]
    exact ⟨rfl, rfl⟩

/-! ## Shared indexing helpers -/

theorem getD_map_of_lt {α β : Type} (f : α → β) (l : List α) (i : Nat) (d : α) (d' : β)
    (hi : i < l.length) :
    (l.map f).getD i d' = f (l.getD i d) := by
  have h1 : (l.map f).getD i d' = ((l.map f).get? i).getD d' := rfl
  rw [h1, List.get?_map]
  cases hg : l.get? i with
  | none =>
      have := List.get?_eq_none.mp hg
      omega
  | some a =>
      have hg' : l[i]? = some a := by simpa [← List.get?_eq_getElem?] using hg
      have ha : l.getD i d = a := by
        have h2 : l.getD i d = (l.get? i).getD d := rfl
        rw [h2, hg]
        rfl
      simp [ha, hg']

theorem enum_getD_of_lt {α : Type} (l : List α) (i : Nat) (d : α) (d' : Nat × α)
    (hi : i < l.length) :
    l.enum.getD i d' = (i, l.getD i d) := by
  have h1 : l.enum.getD i d' = (l.enum.get? i).getD d' := rfl
  rw [h1, List.get?_enum]
  cases hg : l.get? i with
  | none =>
      have := List.get?_eq_none.mp hg
      omega
  | some a =>
      have hg' : l[i]? = some a := by simpa [← List.get?_eq_getElem?] using hg
      have ha : l.getD i d = a := by
        have h2 : l.getD i d = (l.get? i).getD d := rfl
        rw [h2, hg]
        rfl
      simp [ha, hg']

/-! ## C5 — the 10% safety margin of every prediction -/

/-- The prediction at index `i` is `predictOne` of the text at index `i`. -/
theorem predict_getD (texts : List (List Char)) (lang : String)
    (fms : List (String × TextFrameMetrics)) (i : Nat) (hi : i < texts.length) :
    (predictTranslationOverflow texts lang fms).getD i defaultPrediction =
      predictOne ((expansionFactors.lookup lang).getD 1.20) fms i (texts.getD i []) := by
  unfold predictTranslationOverflow
  rw [getD_map_of_lt _ _ _ (i, []) _ (by simpa using hi), enum_getD_of_lt _ _ [] _ hi]

/-- Claim C5:  Every prediction emitted by the predictor has
`recommended_max_length = ⌊available_space_chars × 0.9⌋` exactly, and its
`available_space_chars` is the frame capacity of the geometry model for
the frame the predictor chose. -/
theorem c5_recommended_max_length (texts : List (List Char)) (lang : String)
    (fms : List (String × TextFrameMetrics)) (i : Nat) (hi : i < texts.length) :
    ((predictTranslationOverflow texts lang fms).getD i
        defaultPrediction).recommended_max_length =
      ⌊(((predictTranslationOverflow texts lang fms).getD i
          defaultPrediction).available_space_chars : ℚ) * 0.9⌋ ∧
    ((predictTranslationOverflow texts lang fms).getD i
        defaultPrediction).available_space_chars =
      calculateAvailableCharacterSpace (chooseFrame fms i ((texts.getD i []).length)) := by
  rw [predict_getD texts lang fms i hi]
  refine ⟨?_, rfl⟩
  show ratTrunc ((calculateAvailableCharacterSpace
      (chooseFrame fms i (texts.getD i []).length) : ℚ) * 0.9) = _
  have h50 := capacity_ge_50 (chooseFrame fms i (texts.getD i []).length)
  have h0 : (0 : ℚ) ≤ (calculateAvailableCharacterSpace
      (chooseFrame fms i (texts.getD i []).length) : ℚ) := by
    exact_mod_cast le_trans (by norm_num) h50
  unfold ratTrunc
  rw [if_pos (mul_nonneg h0 (by norm_num))]
  rfl

/-- Witness for C5: one text, the German expansion factor, no frame
metrics (standard virtual frame). -/
theorem c5_witness :
    0 < ([("abc".toList)] : List (List Char)).length ∧
    (((predictTranslationOverflow ["abc".toList] "de" []).getD 0
        defaultPrediction).recommended_max_length =
      ⌊(((predictTranslationOverflow ["abc".toList] "de" []).getD 0
          defaultPrediction).available_space_chars : ℚ) * 0.9⌋ ∧
     ((predictTranslationOverflow ["abc".toList] "de" []).getD 0
        defaultPrediction).available_space_chars =
      calculateAvailableCharacterSpace
        (chooseFrame [] 0 ((([("abc".toList)] : List (List Char)).getD 0 []).length))) :=
  ⟨by norm_num, c5_recommended_max_length ["abc".toList] "de" [] 0 (by norm_num)⟩

/-! ## C10 — low-risk predictions are returned untouched -/

/-- The resolution at index `i` comes from the per-prediction branch of
`resolve_overflow_predictions`. -/
theorem resolve_getD (preds : List OverflowPrediction) (n i : Nat)
    (hi : i < preds.length) :
    (resolveOverflowPredictions preds n).getD i defaultResolution =
      (if (preds.getD i defaultPrediction).overflow_risk ≤ 1.0 then
        noActionResolution (preds.getD i defaultPrediction)
      else resolveSingleOverflow (preds.getD i defaultPrediction) n) := by
  unfold resolveOverflowPredictions
  rw [getD_map_of_lt _ _ _ defaultPrediction _ hi]

/-- Claim C10:  Every prediction with `overflow_risk ≤ 1.0` resolves to the
original text with `space_saved = 0`, `success = True` and resolution
method `no_action_needed` — whatever the relation between the original
length and the recommended max length; the compression path is reserved
for `overflow_risk > 1.0`. -/
theorem c10_low_risk_no_action (preds : List OverflowPrediction) (n i : Nat)
    (hi : i < preds.length)
    (hrisk : (preds.getD i defaultPrediction).overflow_risk ≤ 1.0) :
    ((resolveOverflowPredictions preds n).getD i defaultResolution).resolved_text =
      (preds.getD i defaultPrediction).original_text ∧
    ((resolveOverflowPredictions preds n).getD i defaultResolution).space_saved = 0 ∧
    ((resolveOverflowPredictions preds n).getD i defaultResolution).success = true ∧
    ((resolveOverflowPredictions preds n).getD i defaultResolution).resolution_method =
      "no_action_needed" := by
  rw [resolve_getD preds n i hi, if_pos hrisk]
  exact ⟨rfl, rfl, rfl, rfl⟩

/-- Witness for C10: the resolver leaves `c10Prediction`'s text alone even
though it is longer than the recommended max length. -/
theorem c10_witness :
    0 < ([c10Prediction] : List OverflowPrediction).length ∧
    (([c10Prediction] : List OverflowPrediction).getD 0
        defaultPrediction).overflow_risk ≤ 1.0 ∧
    (((resolveOverflowPredictions [c10Prediction] 3).getD 0
        defaultResolution).resolved_text =
      (([c10Prediction] : List OverflowPrediction).getD 0
        defaultPrediction).original_text ∧
     ((resolveOverflowPredictions [c10Prediction] 3).getD 0
        defaultResolution).space_saved = 0 ∧
     ((resolveOverflowPredictions [c10Prediction] 3).getD 0
        defaultResolution).success = true ∧
     ((resolveOverflowPredictions [c10Prediction] 3).getD 0
        defaultResolution).resolution_method = "no_action_needed") :=
  ⟨by norm_num, by norm_num [c10Prediction, defaultPrediction],
   c10_low_risk_no_action [c10Prediction] 3 0 (by norm_num)
     (by norm_num [c10Prediction, defaultPrediction])⟩

/-! ## C3 — `success` versus `resolved length ≤ recommended max length` -/

/-- Counterexample to C3 as stated: the resolver returns
`success = True` for `c3Prediction` although the resolved text keeps its
60 characters, above the recommended max length of 40 — so `success` is
not equivalent to `resolved length ≤ recommended max length`. -/
theorem c3_counterexample :
    ((resolveOverflowPredictions [c3Prediction] 3).map
        (fun r => (r.success, r.resolved_text.length))) = [(true, 60)] ∧
    ¬ ((60 : Int) ≤ c3Prediction.recommended_max_length) := by
  have hr : c3Prediction.overflow_risk ≤ 1.0 := by norm_num [c3Prediction]
  constructor
  · unfold resolveOverflowPredictions
    simp only [List.map_cons, List.map_nil, if_pos hr]
    simp [noActionResolution, c3Prediction]
  · norm_num [c3Prediction]

/-- Claim C3, amended:  For every resolution produced by the resolver,
`success` is true iff the prediction's `overflow_risk` is at most `1.0`
(the no-action branch reports success unconditionally) **or** the
resolved text's length is at most the prediction's recommended max
length (the compression branch's criterion). -/
theorem c3_amended_success_iff (preds : List OverflowPrediction) (n i : Nat)
    (hi : i < preds.length) :
    (((resolveOverflowPredictions preds n).getD i defaultResolution).success = true ↔
      ((preds.getD i defaultPrediction).overflow_risk ≤ 1.0 ∨
        ((((resolveOverflowPredictions preds n).getD i
            defaultResolution).resolved_text.length : Int) ≤
          (preds.getD i defaultPrediction).recommended_max_length))) := by
  rw [resolve_getD preds n i hi]
  by_cases hr : (preds.getD i defaultPrediction).overflow_risk ≤ 1.0
  · rw [if_pos hr]
    exact iff_of_true rfl (Or.inl hr)
  · rw [if_neg hr]
    unfold resolveSingleOverflow
    simp only [decide_eq_true_eq]
    constructor
    · intro h
      exact Or.inr h
    · intro h
      rcases h with h | h
      · exact absurd h hr
      · exact h

theorem c3_amended_witness :
    0 < ([c3AmendedPrediction] : List OverflowPrediction).length ∧
    (((resolveOverflowPredictions [c3AmendedPrediction] 3).getD 0
        defaultResolution).success = true ↔
      ((([c3AmendedPrediction] : List OverflowPrediction).getD 0
          defaultPrediction).overflow_risk ≤ 1.0 ∨
        ((((resolveOverflowPredictions [c3AmendedPrediction] 3).getD 0
            defaultResolution).resolved_text.length : Int) ≤
          (([c3AmendedPrediction] : List OverflowPrediction).getD 0
            defaultPrediction).recommended_max_length))) :=
  ⟨by norm_num, c3_amended_success_iff [c3AmendedPrediction] 3 0 (by norm_num)⟩

/-! ## C6 — strategy order, iteration bound and early exit of the resolver -/

theorem innerPass_trace (target : Int) :
    ∀ (ss : List String) (st : CompressionState) (tr : List (String × Nat)),
      target < (st.text.length : Int) →
      ∃ new : List (String × Nat),
        (innerPass target ss st tr).2 = tr ++ new ∧
        new.map Prod.fst = ss.take new.length ∧
        (∀ x ∈ new, target < (x.2 : Int)) ∧
        (¬ ((innerPass target ss st tr).1.text.length : Int) ≤ target →
          new.map Prod.fst = ss) := by
  intro ss
  induction ss with
  | nil =>
      intro st tr h
      exact ⟨[], by simp [innerPass], by simp, by simp, fun _ => by simp⟩
  | cons s rest ih =>
      intro st tr h
      simp only [innerPass]
      by_cases hc :
          ((applyCompressionStrategy st.text s).length : Int) ≤ target
      · rw [if_pos hc]
        refine ⟨[(s, st.text.length)], rfl, by simp, ?_, fun hcon => (hcon hc).elim⟩
        intro x hx
        rw [List.mem_singleton.mp hx]
        exact h
      · rw [if_neg hc]
        obtain ⟨new', f1, f2, f3, f4⟩ :=
          ih { text := applyCompressionStrategy st.text s,
               methods := if 0 < (st.text.length : Int) -
                   ((applyCompressionStrategy st.text s).length : Int) then
                 st.methods ++ [s] else st.methods,
               saved := if 0 < (st.text.length : Int) -
                   ((applyCompressionStrategy st.text s).length : Int) then
                 st.saved + ((st.text.length : Int) -
                   ((applyCompressionStrategy st.text s).length : Int))
               else st.saved }
            (tr ++ [(s, st.text.length)]) (not_le.mp hc)
        refine ⟨(s, st.text.length) :: new', ?_, ?_, ?_, ?_⟩
        · rw [f1, List.append_assoc]
          rfl
        · simp only [List.map_cons, List.length_cons, List.take_succ_cons, f2]
        · intro x hx
          rcases List.mem_cons.mp hx with hx | hx
          · rw [hx]; exact h
          · exact f3 x hx
        · intro hcon
          simp only [List.map_cons, f4 hcon]

theorem flatten_replicate_length {α : Type} (n : Nat) (l : List α) :
    (List.replicate n l).flatten.length = n * l.length := by
  induction n with
  | zero => simp
  | succ m ih =>
      simp only [List.replicate_succ, List.flatten_cons, List.length_append, ih,
        Nat.succ_mul]
      omega

theorem compressionLoop_trace (target : Int) :
    ∀ (n : Nat) (st : CompressionState) (tr : List (String × Nat)),
      ∃ new : List (String × Nat),
        (compressionLoop target n st tr).2 = tr ++ new ∧
        new.map Prod.fst =
          (List.replicate n compressionStrategies).flatten.take new.length ∧
        (∀ x ∈ new, target < (x.2 : Int)) := by
  intro n
  induction n with
  | zero => intro st tr; exact ⟨[], by simp [compressionLoop], by simp, by simp⟩
  | succ m ih =>
      intro st tr
      rw [compressionLoop]
      by_cases hst : (st.text.length : Int) ≤ target
      · rw [if_pos hst]
        exact ⟨[], by simp, by simp, by simp⟩
      · rw [if_neg hst]
        obtain ⟨new1, e1, e2, e3, e4⟩ :=
          innerPass_trace target compressionStrategies st tr (not_le.mp hst)
        obtain ⟨new2, f1, f2, f3⟩ :=
          ih (innerPass target compressionStrategies st tr).1
            (innerPass target compressionStrategies st tr).2
        have hlen1 : new1.length ≤ compressionStrategies.length := by
          have := congrArg List.length e2
          simp only [List.length_map, List.length_take] at this
          omega
        refine ⟨new1 ++ new2, ?_, ?_, ?_⟩
        · rw [f1, e1, List.append_assoc]
        · by_cases hdone :
              ((innerPass target compressionStrategies st tr).1.text.length : Int) ≤ target
          · have hstop : (compressionLoop target m
                (innerPass target compressionStrategies st tr).1
                (innerPass target compressionStrategies st tr).2).2 =
                (innerPass target compressionStrategies st tr).2 := by
              cases m with
              | zero => rfl
              | succ k => simp [compressionLoop, hdone]
            have hnew2 : new2 = [] := by
              have h2 := f1.symm.trans hstop
              simpa using congrArg List.length h2
            subst hnew2
            simp only [List.append_nil]
            rw [e2, List.replicate_succ, List.flatten_cons,
              List.take_append_of_le_length hlen1]
          · have hfull := e4 hdone
            have hlenfull : new1.length = compressionStrategies.length := by
              have := congrArg List.length hfull
              simpa using this
            rw [List.map_append, hfull, f2, List.replicate_succ, List.flatten_cons,
              List.length_append, hlenfull, List.take_append]
        · intro x hx
          rcases List.mem_append.mp hx with hx | hx
          · exact e3 x hx
          · exact f3 x hx

/-- Claim C6:  The compression resolver's loop runs at most
`max_iterations` outer passes over the five strategies in the fixed order
`remove_redundancy, use_abbreviations, simplify_language,
remove_optional_words, compact_numbers` — the list of strategy
applications is always a prefix of that order repeated `max_iterations`
times, has at most `5 × max_iterations` entries, and every application
happens while the current text is still strictly longer than the target,
so no strategy is applied after the target is first met; the resolver's
resolved text is the loop's final text. -/
theorem c6_strategy_order_and_early_exit (p : OverflowPrediction) (n : Nat) :
    ((compressionLoop p.recommended_max_length n
        { text := p.original_text, methods := [], saved := 0 } []).2.map Prod.fst =
      (List.replicate n compressionStrategies).flatten.take
        ((compressionLoop p.recommended_max_length n
          { text := p.original_text, methods := [], saved := 0 } []).2.length) ∧
     (compressionLoop p.recommended_max_length n
        { text := p.original_text, methods := [], saved := 0 } []).2.length ≤ 5 * n ∧
     (∀ x ∈ (compressionLoop p.recommended_max_length n
          { text := p.original_text, methods := [], saved := 0 } []).2,
        p.recommended_max_length < (x.2 : Int)) ∧
     (resolveSingleOverflow p n).resolved_text =
       (compressionLoop p.recommended_max_length n
         { text := p.original_text, methods := [], saved := 0 } []).1.text) := by
  obtain ⟨new, e1, e2, e3⟩ := compressionLoop_trace p.recommended_max_length n
    { text := p.original_text, methods := [], saved := 0 } []
  have e1' : (compressionLoop p.recommended_max_length n
      { text := p.original_text, methods := [], saved := 0 } []).2 = new := by
    simpa using e1
  refine ⟨?_, ?_, ?_, rfl⟩
  · rw [e1', e2]
  · rw [e1']
    have := congrArg List.length e2
    simp only [List.length_map, List.length_take, flatten_replicate_length] at this
    have h5 : compressionStrategies.length = 5 := rfl
    rw [h5] at this
    omega
  · rw [e1']
    exact e3

/-! ## C7 — the round-trip behaviour of non-matching texts -/

/-- Claim C7, amended:  On a text that matches no redundancy pattern, no
abbreviation term and no optional word, abbreviation substitution is the
identity byte-for-byte, while redundancy removal and optional-word
removal still normalize whitespace unconditionally: the former returns
the text with whitespace runs collapsed and ends stripped, the latter
returns its words re-joined with single spaces.  Byte-for-byte identity
for those two holds exactly when the text is already fixed by that
normalization. -/
theorem c7_amended_roundtrip (t : List Char)
    (h1 : matchesAnyRedundancy t = false)
    (h2 : matchesAnyAbbreviation t = false)
    (h3 : hasOptionalWord t = false) :
    applyAbbreviations t = t ∧
    removeRedundancy t = stripWS (reSub false [.ws1] [rstr " "] t) ∧
    removeOptionalWords t = joinSpace (splitWS t) ∧
    (stripWS (reSub false [.ws1] [rstr " "] t) = t → removeRedundancy t = t) ∧
    (joinSpace (splitWS t) = t → removeOptionalWords t = t) := by
  have habbrev : applyAbbreviations t = t := by
    unfold applyAbbreviations
    refine foldl_reSub_eq_self true abbrevRules t ?_
    intro a ha
    unfold matchesAnyAbbreviation at h2
    rw [List.any_eq_false] at h2
    simpa using h2 a ha
  have hredfold :
      redundancyPatterns.foldl (fun acc pr => reSub true pr.1 pr.2 acc) t = t := by
    refine foldl_reSub_eq_self true redundancyPatterns t ?_
    intro a ha
    unfold matchesAnyRedundancy at h1
    rw [List.any_eq_false] at h1
    simpa using h1 a ha
  have hred : removeRedundancy t = stripWS (reSub false [.ws1] [rstr " "] t) := by
    unfold removeRedundancy
    rw [hredfold]
  have hopt : removeOptionalWords t = joinSpace (splitWS t) := by
    unfold removeOptionalWords
    refine congrArg joinSpace (List.filter_eq_self.mpr ?_)
    intro w hw
    unfold hasOptionalWord at h3
    rw [List.any_eq_false] at h3
    simpa using h3 w hw
  exact ⟨habbrev, hred, hopt, fun hfix => hred.trans hfix, fun hfix => hopt.trans hfix⟩

set_option maxRecDepth 16000 in
set_option maxHeartbeats 2000000 in
/-- Counterexample to C7 as stated: `"ab  cd"` contains no abbreviation
term, no optional word and matches no redundancy pattern, yet the
optional-word strategy (and redundancy removal) rewrites its double space
— the strategies are not byte-for-byte identities on non-matching
input. -/
theorem c7_counterexample :
    matchesAnyRedundancy "ab  cd".toList = false ∧
    matchesAnyAbbreviation "ab  cd".toList = false ∧
    hasOptionalWord "ab  cd".toList = false ∧
    removeOptionalWords "ab  cd".toList ≠ "ab  cd".toList ∧
    removeRedundancy "ab  cd".toList ≠ "ab  cd".toList :=
  ⟨by decide, by decide, by decide, by decide, by decide⟩

set_option maxRecDepth 16000 in
set_option maxHeartbeats 4000000 in
/-- Witness for the amended C7: `"Haus Auto"` is whitespace-normalized and
matches nothing, so all three strategies return it unchanged. -/
theorem c7_witness :
    matchesAnyRedundancy "Haus Auto".toList = false ∧
    matchesAnyAbbreviation "Haus Auto".toList = false ∧
    hasOptionalWord "Haus Auto".toList = false ∧
    applyAbbreviations "Haus Auto".toList = "Haus Auto".toList ∧
    removeRedundancy "Haus Auto".toList = "Haus Auto".toList ∧
    removeOptionalWords "Haus Auto".toList = "Haus Auto".toList := by
  have h := c7_amended_roundtrip "Haus Auto".toList (by decide) (by decide) (by decide)
  exact ⟨by decide, by decide, by decide, h.1, h.2.2.2.1 (by decide),
    h.2.2.2.2 (by decide)⟩
theorem analyzeDiagramTextContent_nonneg (t : List Char) :
    0 ≤ analyzeDiagramTextContent t := by
  unfold analyzeDiagramTextContent
  split_ifs with h
  · norm_num
  · refine le_min ?_ (by norm_num)
    split_ifs <;> positivity

theorem analyzeDiagramTextContent_le_one (t : List Char) :
    analyzeDiagramTextContent t ≤ 1 := by
  unfold analyzeDiagramTextContent
  split_ifs with h
  · norm_num
  · exact min_le_right _ _

theorem calculateDiagramScore_nonneg (m : TextFrameMetrics) (t : List Char) :
    0 ≤ calculateDiagramScore m t := by
  have hts := analyzeDiagramTextContent_nonneg t
  unfold calculateDiagramScore
  refine le_min ?_ (by norm_num)
  split_ifs <;> linarith

theorem calculateDiagramScore_le_one (m : TextFrameMetrics) (t : List Char) :
    calculateDiagramScore m t ≤ 1 :=
  min_le_right _ _

/-- Claim C8:  Every `DiagramFrameInfo` returned by the diagram-frame
detection pass has a diagram score in `[0.6, 1.0]` (and the score
computation never leaves `[0, 1]`), and its compression priority is
exactly: `critical` when `score ≥ 0.8` and the frame's precomputed
overflow risk is `≥ 1.3`; else `high` when `score ≥ 0.7` and `risk ≥ 1.1`;
else `medium` (the detector's `low` branch is unreachable because only
frames with `score ≥ 0.6` are kept). -/
theorem c8_detected_score_and_priority (frames : List (String × TextFrameMetrics))
    (storiesText : List Char) (fid : String) (info : DiagramFrameInfo)
    (h : (fid, info) ∈ detectDiagramFrames frames storiesText) :
    0.6 ≤ info.diagram_score ∧ 0 ≤ info.diagram_score ∧ info.diagram_score ≤ 1 ∧
    info.compression_priority =
      (if 0.8 ≤ info.diagram_score ∧ 1.3 ≤ info.frame_metrics.estimated_overflow_risk
       then "critical"
       else if 0.7 ≤ info.diagram_score ∧
           1.1 ≤ info.frame_metrics.estimated_overflow_risk
       then "high"
       else "medium") := by
  unfold detectDiagramFrames at h
  rw [List.mem_filterMap] at h
  obtain ⟨fm, _hmem, hfa⟩ := h
  unfold detectOne at hfa
  by_cases hsc : (0.6 : ℚ) ≤ calculateDiagramScore fm.2 storiesText
  · rw [if_pos hsc] at hfa
    injection hfa with hfa
    rw [Prod.mk.injEq] at hfa
    obtain ⟨_hfid, hinfo⟩ := hfa
    subst hinfo
    refine ⟨hsc, calculateDiagramScore_nonneg fm.2 storiesText,
      calculateDiagramScore_le_one fm.2 storiesText, ?_⟩
    show calculateCompressionPriority fm.2 (calculateDiagramScore fm.2 storiesText) = _
    unfold calculateCompressionPriority
    by_cases hc1 : 0.8 ≤ calculateDiagramScore fm.2 storiesText ∧
        1.3 ≤ fm.2.estimated_overflow_risk
    · rw [if_pos hc1, if_pos hc1]
    · rw [if_neg hc1, if_neg hc1]
      by_cases hc2 : 0.7 ≤ calculateDiagramScore fm.2 storiesText ∧
          1.1 ≤ fm.2.estimated_overflow_risk
      · rw [if_pos hc2, if_pos hc2]
      · rw [if_neg hc2, if_neg hc2, if_pos hsc]
  · rw [if_neg hsc] at hfa
    exact absurd hfa (by simp)

set_option maxRecDepth 16000 in
set_option maxHeartbeats 2000000 in
theorem c8_score_value : calculateDiagramScore c8Frame c8Text = 23/25 := by
  have hk : countKeywordMatches (c8Text.map lowerChar) = 3 := by decide
  have hp : flowchartPatternCount (c8Text.map lowerChar) = 0 := by decide
  have hne : ¬ (c8Text = []) := by decide
  simp only [calculateDiagramScore, analyzeDiagramTextContent, if_neg hne, hk, hp]
  norm_num [c8Frame, max_def, min_def]

set_option maxRecDepth 16000 in
set_option maxHeartbeats 2000000 in
theorem c8_detect_aux : detectOne c8Text ("d1", c8Frame) = some ("d1", c8Info) := by
  have hwords1 : (splitWS c8Text).length = 3 := by decide
  have hwords2 : ((splitWS c8Text).map List.length).sum = 27 := by decide
  have hne : c8Text ≠ [] := by decide
  have hrisk : identifyDiagramRiskFactors c8Frame c8Text =
      ["Margini interni molto stretti", "Terminologia tecnica complessa",
       "Alto rischio overflow previsto"] := by
    simp only [identifyDiagramRiskFactors, hwords1, hwords2]
    norm_num [c8Frame, max_def, hne]
  have hstrat : getDiagramSpecificStrategies c8Frame (23/25) =
      ["use_technical_abbreviations", "compress_procedural_language",
       "simplify_decision_points", "ultra_compact_mode", "remove_redundant_terms",
       "use_symbols_over_words"] := by
    norm_num [getDiagramSpecificStrategies, c8Frame]
  have hprio : calculateCompressionPriority c8Frame (23/25) = "critical" := by
    norm_num [calculateCompressionPriority, c8Frame]
  simp only [detectOne, c8_score_value]
  rw [if_pos (by norm_num : (0.6 : ℚ) ≤ 23/25), hrisk, hprio, hstrat]
  rfl

/-- Witness for C8 at the concrete detection run on `c8Frame`/`c8Text`. -/
theorem c8_witness :
    ("d1", c8Info) ∈ detectDiagramFrames [("d1", c8Frame)] c8Text ∧
    (0.6 ≤ c8Info.diagram_score ∧ 0 ≤ c8Info.diagram_score ∧
      c8Info.diagram_score ≤ 1 ∧
      c8Info.compression_priority =
        (if 0.8 ≤ c8Info.diagram_score ∧
            1.3 ≤ c8Info.frame_metrics.estimated_overflow_risk
         then "critical"
         else if 0.7 ≤ c8Info.diagram_score ∧
             1.1 ≤ c8Info.frame_metrics.estimated_overflow_risk
         then "high"
         else "medium")) :=
  ⟨List.mem_filterMap.mpr ⟨("d1", c8Frame), List.mem_singleton.mpr rfl, c8_detect_aux⟩,
   c8_detected_score_and_priority [("d1", c8Frame)] c8Text "d1" c8Info
     (List.mem_filterMap.mpr
       ⟨("d1", c8Frame), List.mem_singleton.mpr rfl, c8_detect_aux⟩)⟩

/-! ## C9 — the diagram score is monotone in the matched keywords -/

theorem length_filter_mono {α : Type} (l : List α) (p q : α → Bool)
    (h : ∀ a ∈ l, p a = true → q a = true) :
    (l.filter p).length ≤ (l.filter q).length := by
  induction l with
  | nil => simp
  | cons a l ih =>
      have ih' := ih (fun b hb hpb => h b (List.mem_cons_of_mem a hb) hpb)
      simp only [List.filter_cons]
      by_cases hp : p a = true
      · rw [if_pos hp, if_pos (h a (List.mem_cons_self a l) hp)]
        simpa using ih'
      · rw [if_neg hp]
        split_ifs with hq
        · simp only [List.length_cons]
          omega
        · exact ih'

/-- The `≥3 / ≥2 / ≥1` keyword bucket of
`_analyze_diagram_text_content` is monotone in the match count. -/
theorem keywordBucket_mono (k1 k2 : Nat) (h : k1 ≤ k2) :
    (if 3 ≤ k1 then (0.8 : ℚ) else if 2 ≤ k1 then 0.6 else if 1 ≤ k1 then 0.4 else 0) ≤
    (if 3 ≤ k2 then (0.8 : ℚ) else if 2 ≤ k2 then 0.6 else if 1 ≤ k2 then 0.4 else 0) := by
  split_ifs <;> first | omega | norm_num

/-- No diagram keyword occurs in the empty text. -/
theorem countKeywordMatches_nil : countKeywordMatches [] = 0 := by decide

theorem flowchartPatternCount_nil : flowchartPatternCount [] = 0 := by decide

theorem analyzeDiagramTextContent_mono (t1 t2 : List Char)
    (hsub : ∀ kw ∈ diagramKeywords,
      containsSub (t1.map lowerChar) kw.toList = true →
        containsSub (t2.map lowerChar) kw.toList = true)
    (hpat : flowchartPatternCount (t1.map lowerChar) =
      flowchartPatternCount (t2.map lowerChar)) :
    analyzeDiagramTextContent t1 ≤ analyzeDiagramTextContent t2 := by
  by_cases h1 : t1 = []
  · have e1 : analyzeDiagramTextContent t1 = 0 := by rw [h1]; rfl
    rw [e1]
    exact analyzeDiagramTextContent_nonneg t2
  · by_cases h2 : t2 = []
    · have hmap2 : t2.map lowerChar = [] := by rw [h2]; rfl
      have hk1 : countKeywordMatches (t1.map lowerChar) = 0 := by
        unfold countKeywordMatches
        have hall : ∀ kw ∈ diagramKeywords,
            ¬ containsSub (t1.map lowerChar) kw.toList = true := by
          intro kw hkw hc
          have hc2 := hsub kw hkw hc
          rw [hmap2] at hc2
          have hnone : ∀ kw ∈ diagramKeywords,
              containsSub ([] : List Char) kw.toList = false := by decide
          rw [hnone kw hkw] at hc2
          exact Bool.false_ne_true hc2
        rw [List.length_eq_zero, List.filter_eq_nil]
        intro kw hkw
        simpa using hall kw hkw
      have hp1 : flowchartPatternCount (t1.map lowerChar) = 0 := by
        rw [hpat, hmap2, flowchartPatternCount_nil]
      have e2 : analyzeDiagramTextContent t2 = 0 := by rw [h2]; rfl
      have e1 : analyzeDiagramTextContent t1 = 0 := by
        simp only [analyzeDiagramTextContent, if_neg h1, hk1, hp1]
        norm_num
      rw [e1, e2]
    · simp only [analyzeDiagramTextContent, if_neg h1, if_neg h2]
      have hk : countKeywordMatches (t1.map lowerChar) ≤
          countKeywordMatches (t2.map lowerChar) :=
        length_filter_mono diagramKeywords _ _ hsub
      refine min_le_min ?_ le_rfl
      rw [hpat]
      exact add_le_add_right (keywordBucket_mono _ _ hk) _

/-- Claim C9:  For a fixed frame, if the associated text is changed so that
it contains a superset of the diagram keywords it contained before, with
all flowchart-pattern matches unchanged, the computed diagram score never
decreases: the keyword bucketing, the per-pattern bonuses and the two
`min`-caps at 1.0 are all monotone. -/
theorem c9_diagram_score_monotone (m : TextFrameMetrics) (t1 t2 : List Char)
    (hsub : ∀ kw ∈ diagramKeywords,
      containsSub (t1.map lowerChar) kw.toList = true →
        containsSub (t2.map lowerChar) kw.toList = true)
    (hpat : flowchartPatternCount (t1.map lowerChar) =
      flowchartPatternCount (t2.map lowerChar)) :
    calculateDiagramScore m t1 ≤ calculateDiagramScore m t2 := by
  have hts := analyzeDiagramTextContent_mono t1 t2 hsub hpat
  unfold calculateDiagramScore
  refine min_le_min ?_ le_rfl
  have h04 : analyzeDiagramTextContent t1 * 0.4 ≤ analyzeDiagramTextContent t2 * 0.4 := by
    linarith
  split_ifs <;> linarith

set_option maxRecDepth 16000 in
set_option maxHeartbeats 2000000 in
/-- Witness for C9: growing the text from one matched keyword to two
(pattern matches unchanged) does not decrease the score. -/
theorem c9_witness :
    (∀ kw ∈ diagramKeywords,
      containsSub ("ispezione".toList.map lowerChar) kw.toList = true →
        containsSub ("ispezione controllo".toList.map lowerChar) kw.toList = true) ∧
    flowchartPatternCount ("ispezione".toList.map lowerChar) =
      flowchartPatternCount ("ispezione controllo".toList.map lowerChar) ∧
    calculateDiagramScore c9Frame "ispezione".toList ≤
      calculateDiagramScore c9Frame "ispezione controllo".toList :=
  ⟨by decide, by decide,
   c9_diagram_score_monotone c9Frame "ispezione".toList "ispezione controllo".toList
     (by decide) (by decide)⟩

end ImdlOverflow
